import Mathlib

/-!
Verification development for the stOTTRs template-expansion engine and
columnar triple store.  The definitions below are a shallow embedding of
the Rust sources under src/stottrs/src; each definition names the source
function it embeds.  Machine integers that cannot overflow in the source
paths we model are represented by Nat/Int.
-/

set_option maxRecDepth 4000

namespace Stottrs

/-! ## Basic data model

`RDFNodeType` embeds the enum of the same name from src/mapping.rs
(variants IRI, BlankNode, Literal(NamedNode), None); a NamedNode is
modelled by its IRI string. -/

inductive RDFNodeType where
  | iri : RDFNodeType
  | blankNode : RDFNodeType
  | literal (datatype : String) : RDFNodeType
  | noneType : RDFNodeType
deriving DecidableEq, Repr

/-- A scalar value held by one cell of a Polars column: either null or a
concrete value.  Strings model Utf8 columns, integers model the Int64
helper columns used by the SPARQL evaluator. -/
inductive Scalar where
  | nullS : Scalar
  | strS (s : String) : Scalar
  | intS (i : Int) : Scalar
deriving DecidableEq, Repr

/-- One cell of a column: a scalar, or a list cell of a Polars List
column (as produced by a list-expanded template argument). -/
inductive Cell where
  | scalar (s : Scalar) : Cell
  | lst (xs : List Scalar) : Cell
deriving DecidableEq, Repr

/-- The null scalar cell. -/
def Cell.null : Cell := Cell.scalar Scalar.nullS

/-- A DataFrame: a schema (ordered column names) and row-major data.
Each row holds one cell per column, positionally. -/
structure DF where
  cols : List String
  rows : List (List Cell)
deriving DecidableEq, Repr

def DF.height (df : DF) : Nat := df.rows.length

/-- Index of a column name in a schema (None when absent). -/
def colIdx (cols : List String) (c : String) : Option Nat :=
  cols.findIdx? (fun x => x == c)

/-- The cell of a row at a named column (null when the column is absent;
the source panics on absent columns, and every theorem below only reads
columns it has required to be present). -/
def cellAt (cols : List String) (row : List Cell) (c : String) : Cell :=
  match colIdx cols c with
  | some i => row.getD i Cell.null
  | none => Cell.null

/-! ## Association-list maps

The source keeps `HashMap`s; we model them by association lists whose
`insertA` replaces an existing binding (HashMap::insert semantics). -/

def lookupA {α : Type} (m : List (String × α)) (k : String) : Option α :=
  (m.find? (fun p => p.1 == k)).map (fun p => p.2)

def insertA {α : Type} : List (String × α) → String → α → List (String × α)
  | [], k, v => [(k, v)]
  | p :: m, k, v => if p.1 == k then (k, v) :: m else p :: insertA m k v

/-! ## C1: the chunking loop of Mapping::expand (src/mapping.rs 225-246)

When a caching folder is configured the source computes
  n_50_mb = df.estimated_size() / 50_000_000 + 1
  chunk_size = df.height() / n_50_mb
and then loops:
  to_row = min(height, offset + chunk_size)
  df_slice = df.slice_par(offset, to_row)   -- NB: second arg is a LENGTH
  offset += chunk_size
  ... process ...
  break when offset >= height
-/

def n_50_mb (estimatedSize : Nat) : Nat := estimatedSize / 50000000 + 1

def chunk_size (height estimatedSize : Nat) : Nat :=
  height / n_50_mb estimatedSize

/-- The break condition tested after iteration k (offsets run
0, cs, 2*cs, ...; after the k-th iteration offset = (k+1)*cs). -/
def chunkLoopBreaks (height cs k : Nat) : Prop := height ≤ (k + 1) * cs

instance (height cs k : Nat) : Decidable (chunkLoopBreaks height cs k) :=
  inferInstanceAs (Decidable (height ≤ (k + 1) * cs))

/-- Rows covered by the slice emitted in iteration k:
`slice_par(offset, to_row)` yields rows [offset, min(height, offset + to_row))
where to_row = min(height, (k+1)*cs) is passed as the slice LENGTH. -/
def sliceCoversRow (height cs k r : Nat) : Bool :=
  decide (k * cs ≤ r) &&
    decide (r < min height (k * cs + min height ((k + 1) * cs)))

/-- Number of loop iterations when the chunk size is positive: the least
m ≥ 1 with m * cs ≥ height. -/
def chunkIterCount (height cs : Nat) : Nat :=
  if cs = 0 then 0 else max 1 ((height + cs - 1) / cs)

/-- How many emitted slices cover row r (counted over the terminating
executions, i.e. when cs > 0). -/
def chunkCoverCount (height estimatedSize r : Nat) : Nat :=
  let cs := chunk_size height estimatedSize
  ((List.range (chunkIterCount height cs)).filter
    (fun k => sliceCoversRow height cs k r)).length

/-! ## Triple store (src/triplestore.rs)

We model the in-memory configuration (`caching_folder == None`): in it a
`TripleTable` always has `dfs == Some(..)` and `df_paths == None`, so the
two Option fields collapse to a plain batch list (the spill branch writes
Parquet files and is outside this embedding).  A batch is a list of rows;
a row is the list of its cells. -/

abbrev Batch := List (List Cell)

/-- `TripleTable` from src/triplestore.rs (in-memory form). -/
structure TripleTable where
  dfs : List Batch
  unique : Bool
  call_uuid : String
deriving DecidableEq, Repr

/-- `Triplestore` from src/triplestore.rs (no caching folder).  The
nested HashMaps predicate -> object type -> bucket are association
lists. -/
structure Triplestore where
  deduplicated : Bool
  df_map : List (String × List (RDFNodeType × TripleTable))
deriving DecidableEq, Repr

/-- `TripleDF` from src/triplestore.rs. -/
structure TripleDF where
  df : Batch
  predicate : String
  object_type : RDFNodeType
deriving DecidableEq, Repr

def emptyTriplestore : Triplestore := { deduplicated := true, df_map := [] }

/-- `HashMap::get` on the inner object-type map. -/
def findBucket (m : List (RDFNodeType × TripleTable)) (ot : RDFNodeType) :
    Option TripleTable :=
  (m.find? (fun q => q.1 == ot)).map (fun q => q.2)

/-- Bucket lookup by (predicate, object type). -/
def lookupBucket (st : Triplestore) (p : String) (ot : RDFNodeType) :
    Option TripleTable :=
  match lookupA st.df_map p with
  | some m => findBucket m ot
  | none => none

def insertBucketMap : List (RDFNodeType × TripleTable) → RDFNodeType →
    TripleTable → List (RDFNodeType × TripleTable)
  | [], ot, tt => [(ot, tt)]
  | q :: m, ot, tt => if q.1 == ot then (ot, tt) :: m else q :: insertBucketMap m ot tt

/-- One iteration of the loop of `Triplestore::add_triples_df_without_folder`
(src/triplestore.rs 228-269): push the batch into the existing bucket and
apply `unique = unique && (call_uuid == bucket.call_uuid)`, setting
`deduplicated = false` when the flag turns (or remains) false; or create a
fresh bucket with `unique = true` under the caller's uuid. -/
def addOneTripleDF (st : Triplestore) (t : TripleDF) (call_uuid : String) :
    Triplestore :=
  match lookupA st.df_map t.predicate with
  | some m =>
    match findBucket m t.object_type with
    | some v =>
      let newUnique := v.unique && (call_uuid == v.call_uuid)
      let v' : TripleTable :=
        { dfs := v.dfs ++ [t.df], unique := newUnique, call_uuid := v.call_uuid }
      { deduplicated := if !newUnique then false else st.deduplicated,
        df_map := insertA st.df_map t.predicate (insertBucketMap m t.object_type v') }
    | none =>
      let v' : TripleTable := { dfs := [t.df], unique := true, call_uuid := call_uuid }
      { st with df_map := insertA st.df_map t.predicate (insertBucketMap m t.object_type v') }
  | none =>
    let v' : TripleTable := { dfs := [t.df], unique := true, call_uuid := call_uuid }
    { st with df_map := insertA st.df_map t.predicate [(t.object_type, v')] }

/-- `Triplestore::add_triples_df_without_folder`: fold the batch list. -/
def add_triples_df_without_folder (st : Triplestore) (ts : List TripleDF)
    (call_uuid : String) : Triplestore :=
  ts.foldl (fun s t => addOneTripleDF s t call_uuid) st

/-- Polars `unique(None, UniqueKeepStrategy::First)` / first-occurrence
iteration order of `partition_by`: keep the first occurrence of every
element. -/
def dedupFirst {α : Type} [DecidableEq α] (seen : List α) : List α → List α
  | [] => []
  | r :: rs =>
    if r ∈ seen then dedupFirst seen rs
    else r :: dedupFirst (r :: seen) rs

/-- The in-memory branch of the per-bucket body of `Triplestore::deduplicate`
(src/triplestore.rs 95-128): a non-unique bucket is drained, its batches
concatenated, deduplicated keep=first, and the single result pushed back;
a bucket already marked unique is left untouched. -/
def dedupTable (tt : TripleTable) : TripleTable :=
  if tt.unique then tt
  else
    { dfs := [dedupFirst [] tt.dfs.flatten], unique := true,
      call_uuid := tt.call_uuid }

/-- `Triplestore::deduplicate` for a store without a caching folder. -/
def deduplicate (st : Triplestore) : Triplestore :=
  { deduplicated := true,
    df_map := st.df_map.map (fun pm => (pm.1, pm.2.map (fun q => (q.1, dedupTable q.2)))) }

/-! ## Outcomes

Rust code in this repository either returns `Ok`, returns an error
(`MappingError` / `SparqlError`), or panics (`unwrap`, `panic!`,
`todo!`, `assert_eq!`, `expect`).  `Res` keeps the three apart. -/

/-- The `MappingError` variants (src/mapping/errors.rs, via their uses in
src/mapping.rs) that the modelled paths can produce. -/
inductive MappingError where
  | templateNotFound (s : String)
  | noTemplateForTemplateNameFromPrefix (s : String)
  | unknownVariableError (s : String)
  | invalidPredicateConstant
deriving DecidableEq, Repr

inductive Res (α : Type) where
  | ok (a : α)
  | err (e : MappingError)
  | panicked
deriving DecidableEq, Repr

def XSD_STRING : String := "http://www.w3.org/2001/XMLSchema#string"

/-! ## prepare_triples (src/triplestore.rs 272-373)

A leaf emission batch has columns subject, object and (when no static
predicate was extracted) verb; we model such a batch as a list of rows of
three optional strings. -/

structure PrepRow where
  subject : Option String
  object : Option String
  verb : Option String
deriving DecidableEq, Repr

/-- `TriplesToAdd` from src/triplestore.rs. -/
structure TriplesToAdd where
  df : List PrepRow
  object_type : RDFNodeType
  language_tag : Option String
  static_verb_column : Option String
  has_unique_subset : Bool
deriving DecidableEq, Repr

/-- One (subject, object) pair to a stored row, appending the
language_tag column exactly when the object type is xsd:string
(src/triplestore.rs 350-362). -/
def storedRow (object_type : RDFNodeType) (language_tag : Option String)
    (so : String × String) : List Cell :=
  let base := [Cell.scalar (Scalar.strS so.1), Cell.scalar (Scalar.strS so.2)]
  if object_type == RDFNodeType.literal XSD_STRING then
    match language_tag with
    | some tag => base ++ [Cell.scalar (Scalar.strS tag)]
    | none => base ++ [Cell.null]
  else base

/-- `prepare_triples_df` (src/triplestore.rs 326-373): drop null rows,
return None when nothing is left, apply unique(keep=first) when the batch
was not tagged `has_unique_subset`, and append the language-tag column
for string-literal objects. -/
def prepare_triples_df (so_rows : List (Option String × Option String))
    (predicate : String) (object_type : RDFNodeType)
    (language_tag : Option String) (has_unique_subset : Bool) :
    Option TripleDF :=
  let dropped := so_rows.filterMap (fun r =>
    match r with
    | (some s, some o) => some (s, o)
    | _ => none)
  if dropped.length = 0 then none
  else
    let uniqued := if !has_unique_subset then dedupFirst [] dropped else dropped
    some { df := uniqued.map (storedRow object_type language_tag),
           predicate := predicate, object_type := object_type }

/-- `prepare_triples` (src/triplestore.rs 272-324).  With a static verb
the frame is projected to (subject, object) and prepared once; otherwise
it is partitioned by the verb column (groups in first-occurrence order)
and the predicate is read back from row 0 of each partition — a null
verb there fails the `AnyValue::Utf8` match and panics. -/
def prepare_triples (df : List PrepRow) (object_type : RDFNodeType)
    (language_tag : Option String) (static_verb_column : Option String)
    (has_unique_subset : Bool) : Res (List TripleDF) :=
  if df.length = 0 then .ok []
  else
    match static_verb_column with
    | some v =>
      match prepare_triples_df (df.map (fun r => (r.subject, r.object))) v
          object_type language_tag has_unique_subset with
      | some tdf => .ok [tdf]
      | none => .ok []
    | none =>
      if df.any (fun r => r.verb.isNone) then .panicked
      else
        let verbs := dedupFirst [] (df.filterMap (fun r => r.verb))
        .ok (verbs.filterMap (fun v =>
          prepare_triples_df
            ((df.filter (fun r => r.verb == some v)).map
              (fun r => (r.subject, r.object)))
            v object_type language_tag has_unique_subset))

/-- `Triplestore::add_triples_vec` (src/triplestore.rs 130-153) for a
store without a caching folder: prepare every emission, flatten, and
route the resulting TripleDFs into buckets. -/
def add_triples_vec (st : Triplestore) (ts : List TriplesToAdd)
    (call_uuid : String) : Res Triplestore :=
  let prepared : Res (List TripleDF) :=
    ts.foldr (fun t acc =>
      match prepare_triples t.df t.object_type t.language_tag
          t.static_verb_column t.has_unique_subset with
      | .ok l =>
        match acc with
        | .ok rest => .ok (l ++ rest)
        | e => e
      | .err e => .err e
      | .panicked => .panicked) (.ok [])
  match prepared with
  | .ok l => .ok (add_triples_df_without_folder st l call_uuid)
  | .err e => .err e
  | .panicked => .panicked

/-! ## Column operations shared by the expansion engine and the SPARQL
evaluator (Polars semantics). -/

/-- Polars `explode` of one cell of a list column: a null cell and an
empty list both yield a single null row; a non-empty list yields one row
per element.  (Scalar cells are returned as-is; the expansion engine only
explodes list columns.) -/
def explodeCell : Cell → List Cell
  | Cell.scalar s => [Cell.scalar s]
  | Cell.lst [] => [Cell.null]
  | Cell.lst xs => xs.map Cell.scalar

/-- Replace the cell of a named column in a row. -/
def setCellAt (cols : List String) (row : List Cell) (c : String) (v : Cell) :
    List Cell :=
  match colIdx cols c with
  | some i => row.set i v
  | none => row

/-- Joint explode of one row over the named columns: each named cell is
exploded, shorter pieces are padded with null to the longest. -/
def explodeRowJoint (cols : List String) (cs : List String)
    (row : List Cell) : List (List Cell) :=
  match cs with
  | [] => [row]
  | _ =>
    let n := (cs.map (fun c => (explodeCell (cellAt cols row c)).length)).foldl
      max 1
    (List.range n).map (fun j =>
      cs.foldl (fun r c =>
        setCellAt cols r c ((explodeCell (cellAt cols row c)).getD j Cell.null)) row)

/-- `LazyFrame::explode(columns)`. -/
def explodeCols (cs : List String) (df : DF) : DF :=
  { cols := df.cols, rows := df.rows.flatMap (explodeRowJoint df.cols cs) }

/-- `drop_nulls(Some(columns))`: drop every row holding a null in any of
the named columns. -/
def dropNullsCols (cs : List String) (df : DF) : DF :=
  { cols := df.cols,
    rows := df.rows.filter (fun r =>
      cs.all (fun c => !(cellAt df.cols r c == Cell.null))) }

/-! ## C7: the list_expander match of create_remapped
(src/mapping.rs 580-596). -/

/-- `ListExpanderType::Cross`: explode each marked column independently. -/
def crossExpand (to_expand : List String) (df : DF) : DF :=
  to_expand.foldl (fun d c => explodeCols [c] d) df

/-- `ListExpanderType::ZipMin`: explode the marked columns jointly, then
drop rows where any of them is null. -/
def zipMinExpand (to_expand : List String) (df : DF) : DF :=
  dropNullsCols to_expand (explodeCols to_expand df)

/-- `ListExpanderType::ZipMax`: explode the marked columns jointly. -/
def zipMaxExpand (to_expand : List String) (df : DF) : DF :=
  explodeCols to_expand df

/-! ## SPARQL solution mappings (src/triplestore/sparql)

`SolutionMappings` (solution_mapping.rs, seen through its uses in the
provided sources) carries a lazy plan, the set of bound variables and a
variable-to-type map; the set and the HashMap are modelled by lists. -/

structure SolutionMappings where
  mappings : DF
  columns : List String
  datatypes : List (String × RDFNodeType)
deriving DecidableEq, Repr

/-- `HashSet::extend`: set union keeping left order. -/
def unionCols (a b : List String) : List String :=
  a ++ b.filter (fun c => !(a.contains c))

/-- The datatype merge of lazy_left_join
(src/triplestore/sparql/lazy_graph_patterns/left_join.rs 105-107):
every right binding is inserted into the left map, overwriting on
collision — the right side wins. -/
def mergeRightWins (left right : List (String × RDFNodeType)) :
    List (String × RDFNodeType) :=
  right.foldl (fun m p => insertA m p.1 p.2) left

/-- `with_column(lit(1i64)).with_column(col(n).cumsum(false))`: append a
helper column holding 1, 2, ... (left_join.rs 32-38). -/
def addCumsumOnes (name : String) (df : DF) : DF :=
  { cols := df.cols ++ [name],
    rows := df.rows.enum.map (fun p =>
      p.2 ++ [Cell.scalar (Scalar.intS (p.1 + 1))]) }

def colValues (df : DF) (name : String) : List Cell :=
  df.rows.map (fun r => cellAt df.cols r name)

/-- `drop_columns([name])`. -/
def dropColumn (name : String) (df : DF) : DF :=
  match colIdx df.cols name with
  | some i => { cols := df.cols.eraseIdx i, rows := df.rows.map (fun r => r.eraseIdx i) }
  | none => df

/-- `with_column(Series::full_null(name, height, dtype))`. -/
def withNullColumn (df : DF) (name : String) : DF :=
  { cols := df.cols ++ [name], rows := df.rows.map (fun r => r ++ [Cell.null]) }

/-- `df.select(names)`. -/
def selectCols (names : List String) (df : DF) : DF :=
  { cols := names, rows := df.rows.map (fun r => names.map (fun n => cellAt df.cols r n)) }

/-- `Triplestore::lazy_left_join`
(src/triplestore/sparql/lazy_graph_patterns/left_join.rs 12-115).
`ljdc` is the context string used as helper-column name; `rightEval`
stands for the recursive `lazy_graph_pattern` call on the right side
(which receives the left solution as input); `expressionFilter`, when
present, is the row predicate obtained by evaluating the optional
expression over the right side (lazy_expression followed by filter and
column drop).  The algorithm: number the left rows, evaluate the right
side over them, filter left rows whose helper id appears in the right
result, null-pad them to the right schema and concatenate (padded left
first), drop the helper column; right datatypes overwrite left ones. -/
def lazy_left_join (ljdc : String) (left : SolutionMappings)
    (rightEval : SolutionMappings → SolutionMappings)
    (expressionFilter : Option (List String → List Cell → Bool)) :
    SolutionMappings :=
  let left_df := addCumsumOnes ljdc left.mappings
  let right_sm0 := rightEval { mappings := left_df, columns := left.columns,
                               datatypes := left.datatypes }
  let right_sm :=
    match expressionFilter with
    | some f =>
      { right_sm0 with
        mappings := { cols := right_sm0.mappings.cols,
                      rows := right_sm0.mappings.rows.filter
                        (f right_sm0.mappings.cols) } }
    | none => right_sm0
  let right_df := right_sm.mappings
  let rightIds := colValues right_df ljdc
  let unmatched : DF :=
    { cols := left_df.cols,
      rows := left_df.rows.filter (fun r =>
        !(rightIds.contains (cellAt left_df.cols r ljdc))) }
  let padded := selectCols right_df.cols
    ((right_df.cols.filter (fun s => !(unmatched.cols.contains s))).foldl
      withNullColumn unmatched)
  let out := dropColumn ljdc
    { cols := right_df.cols, rows := padded.rows ++ right_df.rows }
  { mappings := out, columns := unionCols left.columns right_sm.columns,
    datatypes := mergeRightWins left.datatypes right_sm.datatypes }

/-- The datatype merge of lazy_union
(src/triplestore/sparql/lazy_graph_patterns/union.rs 48-54): a right
binding colliding with a differently-typed left binding hits
`assert_eq!(&dt, left_dt)` — a panic, not an error.  None models that
panic. -/
def mergeAssertEq (left right : List (String × RDFNodeType)) :
    Option (List (String × RDFNodeType)) :=
  right.foldl (fun acc p =>
    match acc with
    | none => none
    | some m =>
      match lookupA m p.1 with
      | some l => if l = p.2 then some m else none
      | none => some (insertA m p.1 p.2)) (some left)

/-- `Triplestore::lazy_union`
(src/triplestore/sparql/lazy_graph_patterns/union.rs 10-61), given the
two evaluated sides.  `concat(vec![left, right], true, true)` is a
vertical concatenation requiring matching schemas (mismatch fails the
`expect("Concat problem")` / the later collect — a panic, with no
null-padding of missing columns); the datatype merge panics on
conflicting types via `assert_eq!`. -/
def lazy_union (left right : SolutionMappings) : Res SolutionMappings :=
  if left.mappings.cols == right.mappings.cols then
    match mergeAssertEq left.datatypes right.datatypes with
    | some dts =>
      .ok { mappings := { cols := left.mappings.cols,
                          rows := left.mappings.rows ++ right.mappings.rows },
            columns := unionCols left.columns right.columns,
            datatypes := dts }
    | none => .panicked
  else .panicked

/-! ## C9: the CONSTRUCT materializer (src/triplestore/sparql.rs 108-203) -/

inductive TermPatternM where
  | namedNode (s : String)
  | blankNodeP (s : String)
  | literalPat (lex : String) (datatype : String)
  | var (v : String)
deriving DecidableEq, Repr

inductive NamedNodePatternM where
  | namedNode (s : String)
  | var (v : String)
deriving DecidableEq, Repr

structure TriplePatternM where
  subject : TermPatternM
  predicate : NamedNodePatternM
  object : TermPatternM
deriving DecidableEq, Repr

/-- `triple_has_variable` (sparql.rs 125-133): checks the subject and the
object slots only — a variable predicate is not seen. -/
def triple_has_variable (t : TriplePatternM) : Bool :=
  (match t.subject with | TermPatternM.var _ => true | _ => false) ||
  (match t.object with | TermPatternM.var _ => true | _ => false)

/-- `variable_series` (sparql.rs 194-203): the whole solution column
(however long), and the variable's recorded type; missing column or
missing type entry hits an `unwrap`. -/
def variable_series (df : DF) (datatypes : List (String × RDFNodeType))
    (v : String) : Res (List Cell × RDFNodeType) :=
  match colIdx df.cols v with
  | some i =>
    match lookupA datatypes v with
    | some dt => .ok (df.rows.map (fun r => r.getD i Cell.null), dt)
    | none => .panicked
  | none => .panicked

/-- `term_pattern_series` (sparql.rs 135-163).  The literal case routes
through `sparql_literal_to_any_value` (src/literals.rs, not among the
provided sources); per its call site the returned type is the literal's
datatype. -/
def term_pattern_series (df : DF) (datatypes : List (String × RDFNodeType))
    (tp : TermPatternM) (len : Nat) : Res (List Cell × RDFNodeType) :=
  match tp with
  | TermPatternM.namedNode nn =>
    .ok (List.replicate len (Cell.scalar (Scalar.strS nn)), RDFNodeType.iri)
  | TermPatternM.blankNodeP _ => .panicked
  | TermPatternM.literalPat lex dt =>
    .ok (List.replicate len (Cell.scalar (Scalar.strS lex)), RDFNodeType.literal dt)
  | TermPatternM.var v => variable_series df datatypes v

/-- `named_node_pattern_series` (sparql.rs 165-176). -/
def named_node_pattern_series (df : DF) (datatypes : List (String × RDFNodeType))
    (nnp : NamedNodePatternM) (len : Nat) : Res (List Cell × RDFNodeType) :=
  match nnp with
  | NamedNodePatternM.namedNode nn =>
    .ok (List.replicate len (Cell.scalar (Scalar.strS nn)), RDFNodeType.iri)
  | NamedNodePatternM.var v => variable_series df datatypes v

/-- `triple_to_df` (sparql.rs 108-123): pick len = height when the
subject or object is a variable, else 1; build the three series;
`DataFrame::new(..).unwrap()` panics when their lengths disagree (as
happens when only the predicate is a variable and height ≠ 1). -/
def triple_to_df (df : DF) (datatypes : List (String × RDFNodeType))
    (t : TriplePatternM) : Res (DF × RDFNodeType) :=
  let len := if triple_has_variable t then df.height else 1
  match term_pattern_series df datatypes t.subject len with
  | .err e => .err e
  | .panicked => .panicked
  | .ok (subj, _) =>
    match named_node_pattern_series df datatypes t.predicate len with
    | .err e => .err e
    | .panicked => .panicked
    | .ok (verb, _) =>
      match term_pattern_series df datatypes t.object len with
      | .err e => .err e
      | .panicked => .panicked
      | .ok (obj, dt) =>
        if subj.length == verb.length && verb.length == obj.length then
          .ok ({ cols := ["subject", "verb", "object"],
                 rows := (subj.zip (verb.zip obj)).map
                   (fun p => [p.1, p.2.1, p.2.2]) }, dt)
        else .panicked

/-! ## Template AST (src/ast.rs, seen through its uses in src/mapping.rs
and the spec's section 3 data model) -/

inductive PType where
  | basicType (nn : String) (prefixed : String)
  | lubType (p : PType)
  | listType (p : PType)
  | neListType (p : PType)
deriving DecidableEq, Repr

inductive ConstantLiteral where
  | iriLit (s : String)
  | blankNodeLit (s : String)
  | literalLit (lexical : String) (datatype : String) (language_tag : Option String)
  | noneLit
deriving DecidableEq, Repr

/-- `ConstantTerm`: a single literal or a list of constants.  The nested
list payload is kept one level deep (scalars), which covers every use in
the provided sources. -/
inductive ConstantTerm where
  | constant (lit : ConstantLiteral)
  | constantList (items : List ConstantLiteral)
deriving DecidableEq, Repr

/-- `StottrTerm`.  The `List(..)` variant's payload is never inspected by
the provided sources (both uses are `todo!()`), so it carries none here. -/
inductive StottrTerm where
  | var (name : String)
  | constantTerm (ct : ConstantTerm)
  | listTerm
deriving DecidableEq, Repr

def StottrTerm.isListTerm : StottrTerm → Bool
  | StottrTerm.listTerm => true
  | _ => false

structure Argument where
  term : StottrTerm
  list_expand : Bool
deriving DecidableEq, Repr

inductive ListExpanderType where
  | cross
  | zipMin
  | zipMax
deriving DecidableEq, Repr

structure Instance where
  template_name : String
  argument_list : List Argument
  list_expander : Option ListExpanderType
deriving DecidableEq, Repr

structure Parameter where
  optional : Bool
  non_blank : Bool
  ptype : Option PType
  stottr_variable : String
  default_value : Option ConstantTerm
deriving DecidableEq, Repr

structure Signature where
  template_name : String
  parameter_list : List Parameter
deriving DecidableEq, Repr

structure Template where
  signature : Signature
  pattern_list : List Instance
deriving DecidableEq, Repr

structure TemplateDataset where
  templates : List Template
  prefix_map : List (String × String)
deriving DecidableEq, Repr

def TemplateDataset.get (tds : TemplateDataset) (s : String) : Option Template :=
  tds.templates.find? (fun t => t.signature.template_name == s)

/-- `OTTR_TRIPLE` (src/constants.rs; spec section 6). -/
def OTTR_TRIPLE : String := "http://ns.ottr.xyz/0.4/Triple"

/-- The built-in terminal template: three parameters subject, verb,
object and an empty pattern list. -/
def ottrTripleTemplate : Template :=
  { signature :=
      { template_name := OTTR_TRIPLE,
        parameter_list :=
          [ { optional := false, non_blank := false, ptype := none,
              stottr_variable := "subject", default_value := none },
            { optional := false, non_blank := false, ptype := none,
              stottr_variable := "verb", default_value := none },
            { optional := false, non_blank := false, ptype := none,
              stottr_variable := "object", default_value := none } ] },
    pattern_list := [] }

/-! ## C8: Mapping::resolve_template (src/mapping.rs 180-201) -/

/-- `Mapping::resolve_template`: exact lookup first; failing that, split
the name on ':', look the first segment up in the prefix map, rejoin the
rest with ':' after the resolved IRI and look that up; a resolved prefix
whose expansion names no template yields
NoTemplateForTemplateNameFromPrefix, anything else TemplateNotFound. -/
def resolve_template (tds : TemplateDataset) (s : String) :
    Except MappingError Template :=
  match tds.get s with
  | some t => Except.ok t
  | none =>
    match s.splitOn ":" with
    | [] => Except.error (MappingError.templateNotFound s)
    | pfx :: rest =>
      match lookupA tds.prefix_map pfx with
      | some nn =>
        let possible_template_name := nn ++ String.intercalate ":" rest
        match tds.get possible_template_name with
        | some t => Except.ok t
        | none =>
          Except.error
            (MappingError.noTemplateForTemplateNameFromPrefix possible_template_name)
      | none => Except.error (MappingError.templateNotFound s)

/-! ## Column maps of the expansion engine (src/mapping.rs 44-70) -/

structure PrimitiveColumn where
  rdf_node_type : RDFNodeType
  language_tag : Option String
deriving DecidableEq, Repr

structure StaticColumn where
  constant_term : ConstantTerm
  ptype : Option PType
deriving DecidableEq, Repr

/-- A leaf emission: `OTTRTripleInstance` (src/mapping.rs 44-49). -/
structure OTTRTripleInstance where
  df : DF
  dynamic_columns : List (String × PrimitiveColumn)
  static_columns : List (String × StaticColumn)
  has_unique_subset : Bool
deriving DecidableEq, Repr

/-- Modelled from the spec: `constant_to_expr` lives in
src/mapping/constant_terms.rs, which is not among the provided sources.
Spec section 4.2: an IRI lowers to a constant string column typed IRI; a
literal to a constant column typed Literal(datatype) with the language
tag preserved only for xsd:string; a list is lowered into a list cell;
None becomes a null column of unknown type.  PType compatibility
checking (ConstantWrongType) is omitted — no claim below exercises it. -/
def constant_to_expr (ct : ConstantTerm) : Res (Cell × RDFNodeType × Option String) :=
  match ct with
  | ConstantTerm.constant (ConstantLiteral.iriLit s) =>
    .ok (Cell.scalar (Scalar.strS s), RDFNodeType.iri, none)
  | ConstantTerm.constant (ConstantLiteral.blankNodeLit s) =>
    .ok (Cell.scalar (Scalar.strS s), RDFNodeType.blankNode, none)
  | ConstantTerm.constant (ConstantLiteral.literalLit lex dt lang) =>
    .ok (Cell.scalar (Scalar.strS lex), RDFNodeType.literal dt,
         if dt == XSD_STRING then lang else none)
  | ConstantTerm.constant ConstantLiteral.noneLit =>
    .ok (Cell.null, RDFNodeType.noneType, none)
  | ConstantTerm.constantList items =>
    .ok (Cell.lst (items.map (fun l =>
          match l with
          | ConstantLiteral.iriLit s => Scalar.strS s
          | ConstantLiteral.blankNodeLit s => Scalar.strS s
          | ConstantLiteral.literalLit lex _ _ => Scalar.strS lex
          | ConstantLiteral.noneLit => Scalar.nullS)),
        (match items.head? with
         | some (ConstantLiteral.literalLit _ dt _) => RDFNodeType.literal dt
         | some (ConstantLiteral.iriLit _) => RDFNodeType.iri
         | _ => RDFNodeType.noneType), none)

/-- The variable name of a `Variable` argument term. -/
def argVar (a : Argument) : Option String :=
  match a.term with
  | StottrTerm.var v => some v
  | _ => none

/-- `get_variable_names` (src/mapping.rs 416-426) restricted to
instances without `List(..)` argument terms (on those the source hits
`todo!()`, which expandModel checks first). -/
def get_variable_names (i : Instance) : List String :=
  i.argument_list.filterMap argVar

/-- Accumulator of the argument loop of `create_remapped`
(src/mapping.rs 512-559). -/
structure RemapState where
  to_expand : List String
  existing : List String
  newNames : List String
  new_dynamic_from_constant : List String
  expressions : List (String × Cell)
  new_dynamic_columns : List (String × PrimitiveColumn)
  new_constant_columns : List (String × StaticColumn)
deriving Repr

def emptyRemapState : RemapState :=
  { to_expand := [], existing := [], newNames := [],
    new_dynamic_from_constant := [], expressions := [],
    new_dynamic_columns := [], new_constant_columns := [] }

/-- The per-(argument, parameter) body of `create_remapped`'s loop
(src/mapping.rs 519-559): a variable argument renames an existing
dynamic column or carries a constant column, an unknown variable is an
error; a constant argument is lowered to a per-row column when
list-expanded, else carried statically; a `List(..)` argument is
`todo!()`. -/
def remapArgs (dyn : List (String × PrimitiveColumn))
    (stat : List (String × StaticColumn)) :
    List (Argument × Parameter) → RemapState → Res RemapState
  | [], st => .ok st
  | (a, p) :: rest, st =>
    let target := p.stottr_variable
    let st := if a.list_expand then { st with to_expand := st.to_expand ++ [target] }
              else st
    match a.term with
    | StottrTerm.var v =>
      match lookupA dyn v with
      | some c =>
        remapArgs dyn stat rest
          { st with existing := st.existing ++ [v],
                    newNames := st.newNames ++ [target],
                    new_dynamic_columns := insertA st.new_dynamic_columns target c }
      | none =>
        match lookupA stat v with
        | some c =>
          remapArgs dyn stat rest
            { st with new_constant_columns := insertA st.new_constant_columns target c }
        | none => .err (MappingError.unknownVariableError v)
    | StottrTerm.constantTerm ct =>
      if a.list_expand then
        match constant_to_expr ct with
        | .ok (cell, ty, lang) =>
          let pc : PrimitiveColumn := { rdf_node_type := ty, language_tag := lang }
          remapArgs dyn stat rest
            { st with
              expressions := st.expressions ++ [(target, cell)],
              new_dynamic_columns := insertA st.new_dynamic_columns target pc,
              new_dynamic_from_constant := st.new_dynamic_from_constant ++ [target] }
        | .err e => .err e
        | .panicked => .panicked
      else
        let sc : StaticColumn := { constant_term := ct, ptype := p.ptype }
        remapArgs dyn stat rest
          { st with new_constant_columns := insertA st.new_constant_columns target sc }
    | StottrTerm.listTerm => .panicked

/-- `rename(existing, new)`: simultaneous positional rename of schema
names. -/
def renameCols (existing newNames : List String) (df : DF) : DF :=
  { cols := df.cols.map (fun c =>
      match existing.findIdx? (fun x => x == c) with
      | some i => newNames.getD i c
      | none => c),
    rows := df.rows }

/-- `with_column` of a constant expression: replace the column when it
exists, else append it. -/
def withConstColumn (df : DF) (name : String) (cell : Cell) : DF :=
  match colIdx df.cols name with
  | some i => { cols := df.cols, rows := df.rows.map (fun r => r.set i cell) }
  | none => { cols := df.cols ++ [name], rows := df.rows.map (fun r => r ++ [cell]) }

/-- `create_remapped` (src/mapping.rs 495-623): run the argument loop,
rename caller columns to callee parameter names (a missing source column
fails the collect().unwrap()), add the lowered constant columns, project
to the callee columns, then either apply the instance's list expander to
the marked columns or translate the caller's unique subsets whose
variables were all passed as plain variable arguments. -/
def create_remapped (inst : Instance) (signature : Signature) (df : DF)
    (dynamic_columns : List (String × PrimitiveColumn))
    (constant_columns : List (String × StaticColumn))
    (unique_subsets : List (List String)) :
    Res (DF × List (String × PrimitiveColumn) × List (String × StaticColumn) ×
         List (List String)) :=
  match remapArgs dynamic_columns constant_columns
      (inst.argument_list.zip signature.parameter_list) emptyRemapState with
  | .err e => .err e
  | .panicked => .panicked
  | .ok st =>
    if !(st.existing.all (fun c => df.cols.contains c)) then .panicked
    else
      let renamed := renameCols st.existing st.newNames df
      let withExprs := st.expressions.foldl
        (fun d p => withConstColumn d p.1 p.2) renamed
      let keep := st.newNames ++ st.new_dynamic_from_constant
      if !(keep.all (fun c => withExprs.cols.contains c)) then .panicked
      else
        let selected := selectCols keep withExprs
        match inst.list_expander with
        | some ListExpanderType.cross =>
          .ok (crossExpand st.to_expand selected, st.new_dynamic_columns,
               st.new_constant_columns, [])
        | some ListExpanderType.zipMin =>
          .ok (zipMinExpand st.to_expand selected, st.new_dynamic_columns,
               st.new_constant_columns, [])
        | some ListExpanderType.zipMax =>
          .ok (zipMaxExpand st.to_expand selected, st.new_dynamic_columns,
               st.new_constant_columns, [])
        | none =>
          let new_unique_subsets := unique_subsets.filterMap (fun subset =>
            if subset.all (fun x => st.existing.contains x) then
              some (subset.map (fun x =>
                match st.existing.findIdx? (fun e => e == x) with
                | some i => st.newNames.getD i x
                | none => x))
            else none)
          .ok (selected, st.new_dynamic_columns, st.new_constant_columns,
               new_unique_subsets)

/-- The per-instance input frame built by `_expand` (src/mapping.rs
279-321): the series named by the instance's variable arguments,
distributed via counted clones.  `DataFrame::new` fails on duplicate
names and a variable without a matching series fails an unwrap — both
panics, modelled by none. -/
def buildInstanceDF (df : DF) (i : Instance) : Option DF :=
  let vs := get_variable_names i
  if decide vs.Nodup && vs.all (fun v => df.cols.contains v) then
    some (selectCols vs df)
  else none

/-- The per-instance body of `_expand`'s parallel loop (src/mapping.rs
325-358), sequenced in pattern-list order; `recurse` is the recursive
`_expand` call at the next (fuel-decremented) level.  The nested
template lookup is an `unwrap` (src/mapping.rs 328-329) — a missing
nested template panics rather than erroring — then create_remapped and
the recursive call; results are concatenated in pattern-list order. -/
def expandPairs (tds : TemplateDataset)
    (recurse : String → DF → List (String × PrimitiveColumn) →
      List (String × StaticColumn) → List (List String) →
      Res (List OTTRTripleInstance)) :
    List (Instance × DF) → List (String × PrimitiveColumn) →
    List (String × StaticColumn) → List (List String) →
    Res (List OTTRTripleInstance)
  | [], _, _, _ => .ok []
  | (i, idf) :: rest, dyn, stat, us =>
    match tds.get i.template_name with
    | none => .panicked
    | some target =>
      match create_remapped i target.signature idf dyn stat us with
      | .err e => .err e
      | .panicked => .panicked
      | .ok (idf2, idyn, istat, ius) =>
        match recurse i.template_name idf2 idyn istat ius with
        | .err e => .err e
        | .panicked => .panicked
        | .ok leaves =>
          match expandPairs tds recurse rest dyn stat us with
          | .err e => .err e
          | .panicked => .panicked
          | .ok more => .ok (leaves ++ more)

/-- `Mapping::_expand` (src/mapping.rs 261-363), fuel-bounded (the
source recursion is bounded only by the template graph; on a cyclic
dataset it would not terminate, which exhausted fuel models as a crash).
Leaf case: a template named ottr:Triple yields one emission.  Recursive
case, in source order: `get_variable_names` hits todo!() on List
argument terms; `get_number_per_series_map` unwraps on a variable that
is not a dynamic column; the per-instance frames are built; then each
instance is remapped and recursed into. -/
def expandModel (tds : TemplateDataset) :
    Nat → String → DF → List (String × PrimitiveColumn) →
    List (String × StaticColumn) → List (List String) →
    Res (List OTTRTripleInstance)
  | 0, _, _, _, _, _ => .panicked
  | Nat.succ fuel, name, df, dyn, stat, us =>
    match tds.get name with
    | none => .err (MappingError.templateNotFound name)
    | some template =>
      if template.signature.template_name == OTTR_TRIPLE then
        .ok [{ df := df, dynamic_columns := dyn, static_columns := stat,
               has_unique_subset := !us.isEmpty }]
      else if template.pattern_list.any (fun i =>
          i.argument_list.any (fun a => a.term.isListTerm)) then
        .panicked
      else if !(template.pattern_list.all (fun i =>
          (get_variable_names i).all (fun v => (lookupA dyn v).isSome))) then
        .panicked
      else
        match template.pattern_list.mapM (fun i =>
            (buildInstanceDF df i).map (fun d => (i, d))) with
        | none => .panicked
        | some pairs => expandPairs tds (expandModel tds fuel) pairs dyn stat us

/-! ## General lemmas about the model's primitive operations -/

theorem mem_dedupFirst {α : Type} [DecidableEq α] (a : α) :
    ∀ (l seen : List α), a ∈ dedupFirst seen l ↔ a ∈ l ∧ a ∉ seen := by
  intro l
  induction l with
  | nil => intro seen; simp [dedupFirst]
  | cons r rs ih =>
    intro seen
    by_cases h : r ∈ seen
    · rw [dedupFirst, if_pos h, ih]
      constructor
      · rintro ⟨ha, hs⟩; exact ⟨List.mem_cons_of_mem _ ha, hs⟩
      · rintro ⟨ha, hs⟩
        rcases List.mem_cons.mp ha with rfl | ha
        · exact absurd h hs
        · exact ⟨ha, hs⟩
    · rw [dedupFirst, if_neg h]
      constructor
      · intro hmem
        rcases List.mem_cons.mp hmem with rfl | hmem
        · exact ⟨List.mem_cons_self _ _, h⟩
        · have hm := (ih (r :: seen)).mp hmem
          exact ⟨List.mem_cons_of_mem _ hm.1,
            fun hs => hm.2 (List.mem_cons_of_mem _ hs)⟩
      · rintro ⟨ha, hs⟩
        rcases List.mem_cons.mp ha with rfl | ha
        · exact List.mem_cons_self _ _
        · by_cases har : a = r
          · subst har; exact List.mem_cons_self _ _
          · refine List.mem_cons_of_mem _ ((ih (r :: seen)).mpr ⟨ha, ?_⟩)
            intro hm
            exact (List.mem_cons.mp hm).elim har hs

theorem nodup_dedupFirst {α : Type} [DecidableEq α] :
    ∀ (l seen : List α), (dedupFirst seen l).Nodup := by
  intro l
  induction l with
  | nil => intro seen; simp [dedupFirst]
  | cons r rs ih =>
    intro seen
    by_cases h : r ∈ seen
    · rw [dedupFirst, if_pos h]; exact ih seen
    · rw [dedupFirst, if_neg h]
      refine List.nodup_cons.mpr ⟨?_, ih (r :: seen)⟩
      intro hm
      exact ((mem_dedupFirst r rs (r :: seen)).mp hm).2 (List.mem_cons_self _ _)

theorem lookupA_insertA_self {α : Type} (k : String) (v : α) :
    ∀ m : List (String × α), lookupA (insertA m k v) k = some v := by
  intro m
  induction m with
  | nil => simp [insertA, lookupA, List.find?]
  | cons p m ih =>
    by_cases h : p.1 == k
    · rw [insertA, if_pos h]
      simp [lookupA, List.find?]
    · rw [insertA, if_neg h]
      simp only [lookupA, List.find?, h]
      exact ih

theorem lookupA_insertA_ne {α : Type} (k k' : String) (v : α) (hne : k' ≠ k) :
    ∀ m : List (String × α), lookupA (insertA m k v) k' = lookupA m k' := by
  intro m
  induction m with
  | nil =>
    simp only [insertA, lookupA, List.find?]
    have : (k == k') = false := by
      simp [beq_iff_eq]; exact fun h => hne h.symm
    simp [this]
  | cons p m ih =>
    by_cases h : p.1 == k
    · rw [insertA, if_pos h]
      have hkk : (k == k') = false := by
        simp [beq_iff_eq]; exact fun hh => hne hh.symm
      have hp : p.1 = k := by simpa [beq_iff_eq] using h
      simp [lookupA, List.find?, hkk, hp]
    · rw [insertA, if_neg h]
      by_cases h2 : p.1 == k'
      · simp [lookupA, List.find?, h2]
      · simp only [lookupA, List.find?, h2]
        exact ih

/-! ## C1 -/

/-- C1: the claim is false of the code (code bug).  With a spill folder
configured, an input of height 1 whose estimated size is 60 MB gives
`chunk_size = 1 / (60000000/50000000 + 1) = 0`, and the loop's break
condition `offset >= height` can never be reached because the offset
advances by the chunk size (`(k+1) * 0 < 1` for every k) — the
expansion loop does not terminate, process_results being invoked over
and over on the same empty slice.  Moreover `slice_par` is passed
`to_row` (an end row) as its *length*, so when more than two chunks are
emitted they overlap: with height 5 and estimated size 100000001 bytes,
row 4 is covered by three chunks instead of exactly once. -/
theorem C1_chunking_code_bug :
    chunk_size 1 60000000 = 0 ∧
    (∀ k : Nat, (k + 1) * chunk_size 1 60000000 < 1) ∧
    chunkCoverCount 5 100000001 4 = 3 := by
  refine ⟨by decide, ?_, by decide⟩
  intro k
  have h : chunk_size 1 60000000 = 0 := by decide
  rw [h, Nat.mul_zero]
  decide

/-! ## C3 -/

def c3_left : SolutionMappings :=
  { mappings := { cols := ["v"], rows := [[Cell.scalar (Scalar.strS "a")]] },
    columns := ["v"], datatypes := [("v", RDFNodeType.iri)] }

def c3_rightConflict : SolutionMappings :=
  { mappings := { cols := ["v"], rows := [[Cell.scalar (Scalar.strS "b")]] },
    columns := ["v"], datatypes := [("v", RDFNodeType.literal XSD_STRING)] }

def c3_rightAgree : SolutionMappings :=
  { mappings := { cols := ["v"], rows := [[Cell.scalar (Scalar.strS "b")]] },
    columns := ["v"], datatypes := [("v", RDFNodeType.iri)] }

/-- C3: the claim is false of the code (code bug).  When the two sides
of a Union bind the common variable v with types IRI and
Literal(xsd:string), `lazy_union` hits `assert_eq!(&dt, left_dt)`
(union.rs line 50) and panics; the declared error variant
`SparqlError::InconsistentDatatypes` (errors.rs 11-12) is never
constructed anywhere in the sources, so no error value reaches the
caller.  When the types agree on the overlapping variable, the result is
the row concatenation of the two sides under the shared schema with the
left type map extended by right-only bindings. -/
theorem C3_union_assert_panics :
    lazy_union c3_left c3_rightConflict = Res.panicked ∧
    lazy_union c3_left c3_rightAgree =
      Res.ok
        { mappings :=
            { cols := ["v"],
              rows := [[Cell.scalar (Scalar.strS "a")],
                       [Cell.scalar (Scalar.strS "b")]] },
          columns := ["v"],
          datatypes := [("v", RDFNodeType.iri)] } := by
  exact ⟨by decide, by decide⟩

/-! ## C9 -/

def c9_df : DF :=
  { cols := ["p"],
    rows := [[Cell.scalar (Scalar.strS "q1")], [Cell.scalar (Scalar.strS "q2")]] }

def c9_t : TriplePatternM :=
  { subject := TermPatternM.namedNode "s",
    predicate := NamedNodePatternM.var "p",
    object := TermPatternM.namedNode "o" }

/-- C9 counterexample: a template triple whose only variable sits in the
predicate position, over a 2-row solution.  The claim says the returned
batch has height(solution) = 2 rows (the triple contains a variable);
the code's `triple_has_variable` inspects only subject and object, picks
len = 1, and `DataFrame::new` then panics on the mismatched series
lengths (subject and object have 1 element, the predicate column 2). -/
theorem C9_predicate_variable_counterexample :
    c9_df.height = 2 ∧
    triple_to_df c9_df [("p", RDFNodeType.iri)] c9_t = Res.panicked := by
  exact ⟨by decide, by decide⟩

/-! ## C7 -/

def c7_df : DF :=
  { cols := ["o"], rows := [[Cell.lst [Scalar.strS "x"]], [Cell.lst []]] }

/-- C7 counterexample: a single list-expanded column "o" whose second
row holds the empty list.  Explode turns the empty list into a null row,
which Cross (and ZipMax) keep but ZipMin's drop_nulls removes — so the
three expanders already diverge on one list column, refuting both the
claimed equality Cross = ZipMin and the claim that divergence needs at
least two list columns of differing lengths. -/
theorem C7_expander_counterexample :
    crossExpand ["o"] c7_df ≠ zipMinExpand ["o"] c7_df := by decide

theorem getD_set_self : ∀ (l : List Cell) (i : Nat), i < l.length →
    ∀ v : Cell, (l.set i v).getD i Cell.null = v
  | [], i, h => absurd h (by simp)
  | _ :: _, 0, _ => fun _ => rfl
  | a :: l, i + 1, h => fun v => by
    have := getD_set_self l i (by simpa using h) v
    simpa [List.getD] using this

theorem getD_map_scalar : ∀ (xs : List Scalar) (j : Nat), j < xs.length →
    (xs.map Cell.scalar).getD j Cell.null = Cell.scalar (xs.getD j Scalar.nullS)
  | [], j, h => absurd h (by simp)
  | _ :: _, 0, _ => rfl
  | a :: xs, j + 1, h => by
    have := getD_map_scalar xs j (by simpa using h)
    simpa [List.getD] using this

theorem getD_mem_scalar : ∀ (xs : List Scalar) (j : Nat), j < xs.length →
    xs.getD j Scalar.nullS ∈ xs
  | [], j, h => absurd h (by simp)
  | a :: xs, 0, _ => List.mem_cons_self a xs
  | a :: xs, j + 1, h => by
    have := getD_mem_scalar xs j (by simpa using h)
    simpa [List.getD] using List.mem_cons_of_mem a this

theorem colIdx_of_cellAt_lst (cols : List String) (row : List Cell) (c : String)
    (xs : List Scalar) (h : cellAt cols row c = Cell.lst xs) :
    ∃ i, colIdx cols c = some i ∧ i < row.length ∧
      row.getD i Cell.null = Cell.lst xs := by
  unfold cellAt at h
  cases hci : colIdx cols c with
  | none => rw [hci] at h; exact absurd h (by simp [Cell.null])
  | some i =>
    rw [hci] at h
    have h' : row.getD i Cell.null = Cell.lst xs := h
    refine ⟨i, rfl, ?_, h'⟩
    by_contra hlt
    push_neg at hlt
    rw [List.getD_eq_default] at h'
    · exact absurd h' (by simp [Cell.null])
    · omega

theorem cellAt_set_self (cols : List String) (row : List Cell) (c : String)
    (i : Nat) (hi : colIdx cols c = some i) (hlen : i < row.length) (v : Cell) :
    cellAt cols (row.set i v) c = v := by
  unfold cellAt
  rw [hi]
  exact getD_set_self row i hlen v

/-- C7 amended: for an instance with exactly one list-expanded column,
Cross and ZipMax always produce the same frame (for a single column the
independent and the joint explode coincide); ZipMin agrees with them as
soon as every row's cell in that column is a non-empty list without null
elements (otherwise ZipMin additionally drops the null rows that explode
produces from empty lists, null cells or null elements — so the three
expanders can diverge already over a single list column). -/
theorem C7_expander_amended (c : String) (df : DF) :
    crossExpand [c] df = zipMaxExpand [c] df ∧
    ((∀ row ∈ df.rows, ∃ xs, xs ≠ [] ∧ Scalar.nullS ∉ xs ∧
        cellAt df.cols row c = Cell.lst xs) →
      zipMinExpand [c] df = crossExpand [c] df) := by
  constructor
  · rfl
  · intro h
    show dropNullsCols [c] (explodeCols [c] df) = crossExpand [c] df
    have hc : crossExpand [c] df = explodeCols [c] df := rfl
    rw [hc]
    have key : ∀ r ∈ (explodeCols [c] df).rows,
        ([c].all (fun cc =>
          !(cellAt (explodeCols [c] df).cols r cc == Cell.null))) = true := by
      intro r hr
      simp only [explodeCols] at hr
      rcases List.mem_flatMap.mp hr with ⟨row, hrow, hmem⟩
      rcases h row hrow with ⟨xs, hne, hnull, hcell⟩
      rcases colIdx_of_cellAt_lst df.cols row c xs hcell with ⟨i, hci, hlen, _⟩
      -- unfold the joint explode of the singleton column list
      simp only [explodeRowJoint] at hmem
      rcases List.mem_map.mp hmem with ⟨j, hj, hrj⟩
      have hexp : explodeCell (cellAt df.cols row c) = xs.map Cell.scalar := by
        rw [hcell]
        cases xs with
        | nil => exact absurd rfl hne
        | cons y ys => rfl
      have hxlen : 1 ≤ xs.length := by
        cases xs with
        | nil => exact absurd rfl hne
        | cons y ys => simp
      have hn : (([c].map (fun cc =>
          (explodeCell (cellAt df.cols row cc)).length)).foldl max 1) = xs.length := by
        simp only [List.map_cons, List.map_nil, List.foldl_cons, List.foldl_nil,
          hexp, List.length_map]
        omega
      rw [hn] at hj
      have hj' : j < xs.length := List.mem_range.mp hj
      have hr_eq : r = setCellAt df.cols row c
          ((explodeCell (cellAt df.cols row c)).getD j Cell.null) := by
        rw [← hrj]
        rfl
      rw [hexp, getD_map_scalar xs j hj'] at hr_eq
      have hset : setCellAt df.cols row c (Cell.scalar (xs.getD j Scalar.nullS)) =
          row.set i (Cell.scalar (xs.getD j Scalar.nullS)) := by
        unfold setCellAt
        rw [hci]
      have hval : cellAt (explodeCols [c] df).cols r c =
          Cell.scalar (xs.getD j Scalar.nullS) := by
        show cellAt df.cols r c = _
        rw [hr_eq, hset]
        exact cellAt_set_self df.cols row c i hci hlen _
      have hxj : xs.getD j Scalar.nullS ≠ Scalar.nullS := by
        intro hcontra
        exact hnull (hcontra ▸ getD_mem_scalar xs j hj')
      have hne2 : Cell.scalar (xs.getD j Scalar.nullS) ≠ Cell.null := by
        simp only [Cell.null, ne_eq, Cell.scalar.injEq]
        exact hxj
      simp only [List.all_cons, List.all_nil, Bool.and_true]
      rw [hval]
      simp only [Bool.not_eq_true', beq_eq_false_iff_ne, ne_eq]
      exact hne2
    unfold dropNullsCols
    rw [List.filter_eq_self.mpr key]
def c7_wdf : DF :=
  { cols := ["o"], rows := [[Cell.lst [Scalar.strS "x", Scalar.strS "y"]]] }

theorem C7_expander_amended_witness :
    crossExpand ["o"] c7_wdf = zipMaxExpand ["o"] c7_wdf ∧
    zipMinExpand ["o"] c7_wdf = crossExpand ["o"] c7_wdf := by
  have h := C7_expander_amended "o" c7_wdf
  refine ⟨h.1, h.2 ?_⟩
  intro row hrow
  have hr : row = [Cell.lst [Scalar.strS "x", Scalar.strS "y"]] := by
    simpa [c7_wdf] using hrow
  subst hr
  exact ⟨[Scalar.strS "x", Scalar.strS "y"], by simp, by decide, by decide⟩

/-! ## C2 -/

def c2_left : SolutionMappings :=
  { mappings := { cols := ["v"], rows := [[Cell.scalar (Scalar.strS "a")]] },
    columns := ["v"], datatypes := [("v", RDFNodeType.iri)] }

def c2_rightEval : SolutionMappings → SolutionMappings := fun _ =>
  { mappings := { cols := ["v", "lj"],
                  rows := [[Cell.scalar (Scalar.strS "a"), Cell.scalar (Scalar.intS 1)]] },
    columns := ["v"], datatypes := [("v", RDFNodeType.literal XSD_STRING)] }

/-- C2 counterexample: the variable v is bound on both sides of the left
join, IRI on the left and Literal(xsd:string) on the right; in the
resulting type map the right side's type stands (left_join.rs 105-107
inserts every right binding into the left map, overwriting), refuting the
claim that the left side's type wins. -/
theorem C2_left_join_left_wins_counterexample :
    lookupA c2_left.datatypes "v" = some RDFNodeType.iri ∧
    lookupA (lazy_left_join "lj" c2_left c2_rightEval none).datatypes "v" =
      some (RDFNodeType.literal XSD_STRING) ∧
    lookupA (lazy_left_join "lj" c2_left c2_rightEval none).datatypes "v" ≠
      some RDFNodeType.iri := by
  exact ⟨by decide, by decide, by decide⟩

theorem lookupA_mergeRightWins_left (v : String) :
    ∀ (R L : List (String × RDFNodeType)), lookupA R v = none →
      lookupA (mergeRightWins L R) v = lookupA L v := by
  intro R
  induction R with
  | nil => intro L _; rfl
  | cons p R ih =>
    intro L h
    have h1 : (p.1 == v) = false := by
      by_contra hb
      have hb' : (p.1 == v) = true := by simpa using hb
      simp [lookupA, List.find?, hb'] at h
    have h2 : lookupA R v = none := by
      simpa [lookupA, List.find?, h1] using h
    have hne : v ≠ p.1 := Ne.symm (by simpa using h1)
    show lookupA (mergeRightWins (insertA L p.1 p.2) R) v = lookupA L v
    rw [ih _ h2]
    exact lookupA_insertA_ne p.1 v p.2 hne L

theorem lookupA_mergeRightWins_right (v : String) (t : RDFNodeType) :
    ∀ (R L : List (String × RDFNodeType)), (R.map Prod.fst).Nodup →
      lookupA R v = some t → lookupA (mergeRightWins L R) v = some t := by
  intro R
  induction R with
  | nil => intro L _ h; simp [lookupA, List.find?] at h
  | cons p R ih =>
    intro L hnd h
    have hnd2 : (p.1 :: R.map Prod.fst).Nodup := by
      rw [List.map_cons] at hnd; exact hnd
    have hcons := List.nodup_cons.mp hnd2
    by_cases hb : (p.1 == v) = true
    · have hv : p.1 = v := by simpa using hb
      have ht : p.2 = t := by simpa [lookupA, List.find?, hb] using h
      have hvnot : v ∉ R.map Prod.fst := hv ▸ hcons.1
      have hfind : List.find? (fun q => q.1 == v) R = none := by
        rw [List.find?_eq_none]
        intro x hx hpx
        exact hvnot (by
          have hx1 : x.1 = v := by simpa using hpx
          exact hx1 ▸ List.mem_map_of_mem Prod.fst hx)
      have hnone : lookupA R v = none := by simp [lookupA, hfind]
      show lookupA (mergeRightWins (insertA L p.1 p.2) R) v = some t
      rw [lookupA_mergeRightWins_left v R _ hnone, hv, ht]
      exact lookupA_insertA_self v t L
    · have hb' : (p.1 == v) = false := by simpa using hb
      have h2 : lookupA R v = some t := by
        simpa [lookupA, List.find?, hb'] using h
      exact ih (insertA L p.1 p.2) hcons.2 h2

/-- Per-row effect of `dropColumn`. -/
def dropRowAt (cols : List String) (name : String) (row : List Cell) : List Cell :=
  match colIdx cols name with
  | some i => row.eraseIdx i
  | none => row

theorem dropColumn_rows (name : String) (df : DF) :
    (dropColumn name df).rows = df.rows.map (dropRowAt df.cols name) := by
  cases h : colIdx df.cols name with
  | none =>
    have hid : dropRowAt df.cols name = fun r => r := by
      funext r; simp [dropRowAt, h]
    simp [dropColumn, h, hid]
  | some i =>
    have hpt : dropRowAt df.cols name = fun r : List Cell => r.eraseIdx i := by
      funext r; simp [dropRowAt, h]
    simp [dropColumn, h, hpt]

theorem mem_dropColumn_of_mem (name : String) (df : DF) (r : List Cell)
    (hr : r ∈ df.rows) : dropRowAt df.cols name r ∈ (dropColumn name df).rows := by
  rw [dropColumn_rows]
  exact List.mem_map_of_mem _ hr

theorem rows_length_selectCols (names : List String) (df : DF) :
    (selectCols names df).rows.length = df.rows.length := by
  simp [selectCols]

theorem rows_length_foldl_withNull :
    ∀ (names : List String) (df : DF),
      ((names.foldl withNullColumn df)).rows.length = df.rows.length := by
  intro names
  induction names with
  | nil => intro df; rfl
  | cons n ns ih =>
    intro df
    show ((ns.foldl withNullColumn (withNullColumn df n))).rows.length = _
    rw [ih]
    simp [withNullColumn]

/-- C2 amended: for every LeftJoin node the evaluator implements a
null-filled concat strategy rather than a direct outer join: it numbers
the left rows with a helper column, evaluates the right sub-plan with
that left solution as input, evaluates expr (when present) over the
right side and filters by it, null-pads the left rows whose helper id is
absent from the right result to the right schema, and concatenates them
with the right result (so the output has one row per surviving right
solution plus one per unmatched left row, and every filtered right
solution appears in the output); in the resulting
variable-to-RDFNodeType map, for every variable bound on both sides the
RIGHT side's entry wins (left_join.rs 105-107 inserts right bindings
over left ones), and variables absent on the right keep the left's
type. -/
theorem C2_left_join_amended (ljdc : String) (left : SolutionMappings)
    (rightEval : SolutionMappings → SolutionMappings)
    (f : Option (List String → List Cell → Bool))
    (right0 : SolutionMappings)
    (hr : rightEval
        { mappings := addCumsumOnes ljdc left.mappings,
          columns := left.columns,
          datatypes := left.datatypes } = right0)
    (rightRows : List (List Cell))
    (hrr : rightRows = (match f with
      | some ff => right0.mappings.rows.filter (ff right0.mappings.cols)
      | none => right0.mappings.rows))
    (hnd : (right0.datatypes.map Prod.fst).Nodup) :
    (∀ v t, lookupA right0.datatypes v = some t →
      lookupA (lazy_left_join ljdc left rightEval f).datatypes v = some t) ∧
    (∀ v, lookupA right0.datatypes v = none →
      lookupA (lazy_left_join ljdc left rightEval f).datatypes v =
        lookupA left.datatypes v) ∧
    (lazy_left_join ljdc left rightEval f).mappings.rows.length =
      ((addCumsumOnes ljdc left.mappings).rows.filter (fun r =>
        !((rightRows.map (fun rr => cellAt right0.mappings.cols rr ljdc)).contains
          (cellAt (addCumsumOnes ljdc left.mappings).cols r ljdc)))).length +
        rightRows.length ∧
    (∀ r ∈ rightRows, dropRowAt right0.mappings.cols ljdc r ∈
      (lazy_left_join ljdc left rightEval f).mappings.rows) := by
  subst hrr
  cases f with
  | none =>
    refine ⟨?_, ?_, ?_, ?_⟩
    · intro v t h
      simp only [lazy_left_join, hr]
      exact lookupA_mergeRightWins_right v t _ _ hnd h
    · intro v h
      simp only [lazy_left_join, hr]
      exact lookupA_mergeRightWins_left v _ _ h
    · simp only [lazy_left_join, hr, dropColumn_rows, colValues,
        List.length_map, List.length_append, rows_length_selectCols,
        rows_length_foldl_withNull]
    · intro r hrm
      simp only [lazy_left_join, hr, dropColumn_rows]
      exact List.mem_map_of_mem _ (List.mem_append_right _ hrm)
  | some ff =>
    refine ⟨?_, ?_, ?_, ?_⟩
    · intro v t h
      simp only [lazy_left_join, hr]
      exact lookupA_mergeRightWins_right v t _ _ hnd h
    · intro v h
      simp only [lazy_left_join, hr]
      exact lookupA_mergeRightWins_left v _ _ h
    · simp only [lazy_left_join, hr, dropColumn_rows, colValues,
        List.length_map, List.length_append, rows_length_selectCols,
        rows_length_foldl_withNull]
    · intro r hrm
      simp only [lazy_left_join, hr, dropColumn_rows]
      exact List.mem_map_of_mem _ (List.mem_append_right _ hrm)

/-! ## C4 / C5: store lemmas -/

theorem findBucket_insertBucketMap_self (ot : RDFNodeType) (tt : TripleTable) :
    ∀ m, findBucket (insertBucketMap m ot tt) ot = some tt := by
  intro m
  induction m with
  | nil => simp [insertBucketMap, findBucket, List.find?]
  | cons q m ih =>
    by_cases h : (q.1 == ot)
    · rw [insertBucketMap, if_pos h]
      simp [findBucket, List.find?]
    · rw [insertBucketMap, if_neg h]
      simp only [findBucket, List.find?, h]
      exact ih

theorem findBucket_insertBucketMap_ne (ot ot' : RDFNodeType) (tt : TripleTable)
    (hne : ot' ≠ ot) :
    ∀ m, findBucket (insertBucketMap m ot tt) ot' = findBucket m ot' := by
  intro m
  induction m with
  | nil =>
    simp only [insertBucketMap, findBucket, List.find?]
    have h : (ot == ot') = false := by
      simp only [beq_eq_false_iff_ne, ne_eq]
      exact fun hh => hne hh.symm
    simp [h]
  | cons q m ih =>
    by_cases h : (q.1 == ot)
    · rw [insertBucketMap, if_pos h]
      have hq : q.1 = ot := by simpa using h
      have hoo : (ot == ot') = false := by
        simp only [beq_eq_false_iff_ne, ne_eq]
        exact fun hh => hne hh.symm
      have hqo : (q.1 == ot') = false := by
        rw [hq]; exact hoo
      simp [findBucket, List.find?, hoo, hqo]
    · rw [insertBucketMap, if_neg h]
      by_cases h2 : (q.1 == ot')
      · simp [findBucket, List.find?, h2]
      · simp only [findBucket, List.find?, h2]
        exact ih

/-- What one `addOneTripleDF` does to each bucket: the targeted bucket is
extended (or created), all others are untouched. -/
theorem lookupBucket_addOne (st : Triplestore) (t : TripleDF) (u : String)
    (p : String) (ot : RDFNodeType) :
    lookupBucket (addOneTripleDF st t u) p ot =
      if t.predicate = p ∧ t.object_type = ot then
        match lookupBucket st p ot with
        | some v => some { dfs := v.dfs ++ [t.df],
                           unique := v.unique && (u == v.call_uuid),
                           call_uuid := v.call_uuid }
        | none => some { dfs := [t.df], unique := true, call_uuid := u }
      else lookupBucket st p ot := by
  by_cases hp : t.predicate = p
  · by_cases hot : t.object_type = ot
    · rw [if_pos ⟨hp, hot⟩]
      subst hp; subst hot
      unfold addOneTripleDF lookupBucket
      cases hA : lookupA st.df_map t.predicate with
      | none =>
        simp only [hA]
        rw [lookupA_insertA_self]
        simp [findBucket, List.find?]
      | some m =>
        cases hB : findBucket m t.object_type with
        | none =>
          simp only [hA, hB]
          rw [lookupA_insertA_self]
          dsimp only
          rw [findBucket_insertBucketMap_self]
        | some v =>
          simp only [hA, hB]
          rw [lookupA_insertA_self]
          dsimp only
          rw [findBucket_insertBucketMap_self]
    · rw [if_neg (fun hh => hot hh.2)]
      subst hp
      unfold addOneTripleDF lookupBucket
      cases hA : lookupA st.df_map t.predicate with
      | none =>
        simp only [hA]
        rw [lookupA_insertA_self]
        have : (t.object_type == ot) = false := by
          simp only [beq_eq_false_iff_ne, ne_eq]; exact hot
        simp [findBucket, List.find?, this]
      | some m =>
        cases hB : findBucket m t.object_type with
        | none =>
          simp only [hA, hB]
          rw [lookupA_insertA_self]
          dsimp only
          rw [findBucket_insertBucketMap_ne _ _ _ (fun hh => hot hh.symm)]
        | some v =>
          simp only [hA, hB]
          rw [lookupA_insertA_self]
          dsimp only
          rw [findBucket_insertBucketMap_ne _ _ _ (fun hh => hot hh.symm)]
  · rw [if_neg (fun hh => hp hh.1)]
    unfold addOneTripleDF lookupBucket
    cases hA : lookupA st.df_map t.predicate with
    | none =>
      simp only [hA]
      rw [lookupA_insertA_ne _ _ _ (fun hh => hp hh.symm)]
    | some m =>
      cases hB : findBucket m t.object_type with
      | none =>
        simp only [hA, hB]
        rw [lookupA_insertA_ne _ _ _ (fun hh => hp hh.symm)]
      | some v =>
        simp only [hA, hB]
        rw [lookupA_insertA_ne _ _ _ (fun hh => hp hh.symm)]

/-- `deduplicated` can only go false-ward during an addition. -/
theorem deduplicated_addOne_mono (st : Triplestore) (t : TripleDF) (u : String)
    (h : st.deduplicated = false) : (addOneTripleDF st t u).deduplicated = false := by
  unfold addOneTripleDF
  cases hA : lookupA st.df_map t.predicate with
  | none => simp only [hA]; exact h
  | some m =>
    simp only [hA]
    cases hB : findBucket m t.object_type with
    | none => simp only [hB]; exact h
    | some v =>
      simp only [hB]
      by_cases hu : (v.unique && (u == v.call_uuid)) = true
      · simp [hu, h]
      · simp only [Bool.not_eq_true] at hu
        simp [hu]

/-- An addition that hits an existing bucket and leaves `unique` false
also clears the store's `deduplicated` flag. -/
theorem deduplicated_addOne_flip (st : Triplestore) (t : TripleDF) (u : String)
    (v : TripleTable)
    (hb : lookupBucket st t.predicate t.object_type = some v)
    (hflip : (v.unique && (u == v.call_uuid)) = false) :
    (addOneTripleDF st t u).deduplicated = false := by
  unfold lookupBucket at hb
  unfold addOneTripleDF
  cases hA : lookupA st.df_map t.predicate with
  | none =>
    rw [hA] at hb
    exact absurd hb (by simp)
  | some m =>
    rw [hA] at hb
    have hb2 : findBucket m t.object_type = some v := hb
    simp only [hA, hb2]
    simp [hflip]

theorem addMany_same_uuid (u : String) (p : String) (ot : RDFNodeType) :
    ∀ (ts : List TripleDF) (st : Triplestore) (tt : TripleTable),
      lookupBucket st p ot = some tt → tt.unique = true → tt.call_uuid = u →
      ∃ tt', lookupBucket (add_triples_df_without_folder st ts u) p ot = some tt' ∧
        tt'.unique = true ∧ tt'.call_uuid = u := by
  intro ts
  induction ts with
  | nil => intro st tt hb hu hc; exact ⟨tt, hb, hu, hc⟩
  | cons t ts ih =>
    intro st tt hb hu hc
    by_cases hmatch : t.predicate = p ∧ t.object_type = ot
    · have hstep := lookupBucket_addOne st t u p ot
      rw [if_pos hmatch, hb] at hstep
      exact ih (addOneTripleDF st t u) _ hstep (by simp [hu, hc]) hc
    · have hstep := lookupBucket_addOne st t u p ot
      rw [if_neg hmatch] at hstep
      exact ih (addOneTripleDF st t u) tt (hstep.trans hb) hu hc

theorem addMany_keep_false (u : String) (p : String) (ot : RDFNodeType) :
    ∀ (ts : List TripleDF) (st : Triplestore) (tt : TripleTable),
      lookupBucket st p ot = some tt → tt.unique = false → st.deduplicated = false →
      ∃ tt', lookupBucket (add_triples_df_without_folder st ts u) p ot = some tt' ∧
        tt'.unique = false ∧
        (add_triples_df_without_folder st ts u).deduplicated = false := by
  intro ts
  induction ts with
  | nil => intro st tt hb hu hd; exact ⟨tt, hb, hu, hd⟩
  | cons t ts ih =>
    intro st tt hb hu hd
    have hdd := deduplicated_addOne_mono st t u hd
    by_cases hmatch : t.predicate = p ∧ t.object_type = ot
    · have hstep := lookupBucket_addOne st t u p ot
      rw [if_pos hmatch, hb] at hstep
      exact ih (addOneTripleDF st t u) _ hstep (by simp [hu]) hdd
    · have hstep := lookupBucket_addOne st t u p ot
      rw [if_neg hmatch] at hstep
      exact ih (addOneTripleDF st t u) tt (hstep.trans hb) hu hdd

theorem addMany_flip (u : String) (p : String) (ot : RDFNodeType) :
    ∀ (ts : List TripleDF) (st : Triplestore) (tt : TripleTable),
      lookupBucket st p ot = some tt → tt.call_uuid ≠ u →
      (∃ t ∈ ts, t.predicate = p ∧ t.object_type = ot) →
      ∃ tt', lookupBucket (add_triples_df_without_folder st ts u) p ot = some tt' ∧
        tt'.unique = false ∧
        (add_triples_df_without_folder st ts u).deduplicated = false := by
  intro ts
  induction ts with
  | nil => intro st tt _ _ hex; exact absurd hex (by simp)
  | cons t ts ih =>
    intro st tt hb hc hex
    by_cases hmatch : t.predicate = p ∧ t.object_type = ot
    · have hbeq : (u == tt.call_uuid) = false := by
        simp only [beq_eq_false_iff_ne, ne_eq]
        exact fun hh => hc hh.symm
      have hstep := lookupBucket_addOne st t u p ot
      rw [if_pos hmatch, hb] at hstep
      have hflip : (tt.unique && (u == tt.call_uuid)) = false := by
        rw [hbeq]; simp
      have hd : (addOneTripleDF st t u).deduplicated = false := by
        apply deduplicated_addOne_flip st t u tt _ hflip
        rw [hmatch.1, hmatch.2]
        exact hb
      exact addMany_keep_false u p ot ts (addOneTripleDF st t u) _ hstep
        (by simp [hflip]) hd
    · have hstep := lookupBucket_addOne st t u p ot
      rw [if_neg hmatch] at hstep
      rcases hex with ⟨t', ht', hpt'⟩
      rcases List.mem_cons.mp ht' with rfl | ht'
      · exact absurd hpt' hmatch
      · exact ih (addOneTripleDF st t u) tt (hstep.trans hb) hc ⟨t', ht', hpt'⟩

/-! ## C4 claim -/

def c4_row : List Cell := [Cell.scalar (Scalar.strS "a"), Cell.scalar (Scalar.strS "x")]

def c4_em : TriplesToAdd :=
  { df := [{ subject := some "a", object := some "x", verb := none }],
    object_type := RDFNodeType.iri, language_tag := none,
    static_verb_column := some "p", has_unique_subset := true }

def c4_st2 : Triplestore :=
  { deduplicated := true,
    df_map := [("p", [(RDFNodeType.iri,
      { dfs := [[c4_row], [c4_row]], unique := true, call_uuid := "u" })])] }

/-- C4 counterexample: one expansion call whose template emits the same
triple batch twice (both emissions tagged has_unique_subset and added
under the same call uuid) reaches a store state in which the bucket's
unique flag is true but the concatenation of its batches holds the same
row twice — so unique = true does not imply that every row of the
concatenation is distinct. -/
theorem C4_unique_flag_counterexample :
    add_triples_vec emptyTriplestore [c4_em, c4_em] "u" = Res.ok c4_st2 ∧
    lookupBucket c4_st2 "p" RDFNodeType.iri =
      some { dfs := [[c4_row], [c4_row]], unique := true, call_uuid := "u" } ∧
    ¬ ([c4_row, c4_row] : List (List Cell)).Nodup := by
  exact ⟨by decide, by decide, by decide⟩

/-- C4 amended: the unique flag is a per-call heuristic, not a row-level
invariant.  For a store without a spill folder: a bucket whose flag is
true and whose call_uuid is u keeps flag true and uuid u across any
sequence of additions carried out under uuid u (regardless of the
has_unique_subset tags, which only control the per-batch unique pass in
prepare_triples); and as soon as an addition under a different uuid hits
the bucket, its unique flag becomes false and the store's deduplicated
flag becomes false.  unique = true does NOT guarantee that the
concatenation of the bucket's batches is duplicate-free. -/
theorem C4_unique_flag_dynamics (st : Triplestore) (p : String)
    (ot : RDFNodeType) (tt : TripleTable) (u : String) (ts : List TripleDF)
    (hb : lookupBucket st p ot = some tt) :
    (tt.unique = true → tt.call_uuid = u →
      ∃ tt', lookupBucket (add_triples_df_without_folder st ts u) p ot = some tt' ∧
        tt'.unique = true ∧ tt'.call_uuid = u) ∧
    (tt.call_uuid ≠ u → (∃ t ∈ ts, t.predicate = p ∧ t.object_type = ot) →
      ∃ tt', lookupBucket (add_triples_df_without_folder st ts u) p ot = some tt' ∧
        tt'.unique = false ∧
        (add_triples_df_without_folder st ts u).deduplicated = false) :=
  ⟨fun hu hc => addMany_same_uuid u p ot ts st tt hb hu hc,
   fun hc hex => addMany_flip u p ot ts st tt hb hc hex⟩

def c4_tdf : TripleDF :=
  { df := [c4_row], predicate := "p", object_type := RDFNodeType.iri }

theorem C4_unique_flag_dynamics_witness :
    ∃ tt', lookupBucket (add_triples_df_without_folder c4_st2 [c4_tdf] "w")
        "p" RDFNodeType.iri = some tt' ∧
      tt'.unique = false ∧
      (add_triples_df_without_folder c4_st2 [c4_tdf] "w").deduplicated = false := by
  have h := C4_unique_flag_dynamics c4_st2 "p" RDFNodeType.iri
    { dfs := [[c4_row], [c4_row]], unique := true, call_uuid := "u" } "w" [c4_tdf]
    (by decide)
  exact h.2 (by decide) ⟨c4_tdf, by decide, by decide, by decide⟩

/-! ## C5 claim -/

theorem lookupA_map_val {α β : Type} (f : α → β) (k : String) :
    ∀ m : List (String × α),
      lookupA (m.map (fun p => (p.1, f p.2))) k = (lookupA m k).map f := by
  intro m
  induction m with
  | nil => rfl
  | cons p m ih =>
    by_cases h : (p.1 == k)
    · simp [lookupA, List.find?, h]
    · simp only [lookupA, List.find?, List.map_cons, h]
      exact ih

theorem findBucket_map_val (f : TripleTable → TripleTable) (ot : RDFNodeType) :
    ∀ m : List (RDFNodeType × TripleTable),
      findBucket (m.map (fun q => (q.1, f q.2))) ot = (findBucket m ot).map f := by
  intro m
  induction m with
  | nil => rfl
  | cons q m ih =>
    by_cases h : (q.1 == ot)
    · simp [findBucket, List.find?, h]
    · simp only [findBucket, List.find?, List.map_cons, h]
      exact ih

theorem lookupBucket_deduplicate (st : Triplestore) (p : String)
    (ot : RDFNodeType) :
    lookupBucket (deduplicate st) p ot = (lookupBucket st p ot).map dedupTable := by
  unfold deduplicate lookupBucket
  rw [lookupA_map_val (fun m => m.map (fun q => (q.1, dedupTable q.2))) p st.df_map]
  cases lookupA st.df_map p with
  | none => rfl
  | some m =>
    dsimp only [Option.map]
    exact findBucket_map_val dedupTable ot m

theorem dedupTable_unique (tt : TripleTable) :
    (dedupTable tt).unique = true := by
  by_cases hu : tt.unique = true
  · simp [dedupTable, hu]
  · simp only [Bool.not_eq_true] at hu
    simp [dedupTable, hu]

theorem dedupTable_of_unique (tt : TripleTable) (h : tt.unique = true) :
    dedupTable tt = tt := by
  simp [dedupTable, h]

theorem dedupTable_of_not_unique (tt : TripleTable) (h : tt.unique = false) :
    dedupTable tt = { dfs := [dedupFirst [] tt.dfs.flatten], unique := true,
                      call_uuid := tt.call_uuid } := by
  simp [dedupTable, h]

theorem deduplicate_idem (st : Triplestore) :
    deduplicate (deduplicate st) = deduplicate st := by
  unfold deduplicate
  simp only [List.map_map, Function.comp]
  congr 1
  apply List.map_congr_left
  intro pm _
  simp only [List.map_map, Function.comp]
  congr 1
  apply List.map_congr_left
  intro q _
  have hq : dedupTable (dedupTable q.2) = dedupTable q.2 := by
    apply dedupTable_of_unique
    exact dedupTable_unique q.2
  simp [Function.comp, hq]

def c5_bucket : TripleTable :=
  { dfs := [[c4_row], [c4_row]], unique := true, call_uuid := "u" }

/-- C5 counterexample: the two-identical-emissions store of C4 is
reachable, its single bucket carries unique = true, and deduplicate()
leaves it untouched (only buckets with unique = false are rewritten):
the duplicate row survives deduplication even though deduplicated
becomes true — refuting "no duplicate rows remaining" and "every
bucket's row set equals the set-union ... with no duplicate rows". -/
theorem C5_dedup_counterexample :
    add_triples_vec emptyTriplestore [c4_em, c4_em] "u" = Res.ok c4_st2 ∧
    deduplicate c4_st2 = c4_st2 ∧
    lookupBucket (deduplicate c4_st2) "p" RDFNodeType.iri = some c5_bucket ∧
    ¬ (c5_bucket.dfs.flatten).Nodup ∧
    (deduplicate c4_st2).deduplicated = true := by
  exact ⟨by decide, by decide, by decide, by decide, by decide⟩

/-- C5 amended: after deduplicate() (in-memory store) the store's
deduplicated flag is true and every bucket's unique flag is true; every
bucket whose unique flag was FALSE is replaced by the single batch
obtained by concatenating its batches and applying unique keep=first, so
its row set equals the set-union of the previously added batches with no
duplicate rows; but a bucket already flagged unique is left completely
untouched and may retain duplicate rows (the flag is a per-call
heuristic).  A second deduplicate() immediately after changes nothing
(idempotence). -/
theorem C5_deduplicate_amended (st : Triplestore) :
    (deduplicate st).deduplicated = true ∧
    (∀ p ot tt, lookupBucket st p ot = some tt →
      ∃ tt', lookupBucket (deduplicate st) p ot = some tt' ∧
        tt'.unique = true ∧
        (tt.unique = false →
          tt'.dfs = [dedupFirst [] tt.dfs.flatten] ∧
          tt'.dfs.flatten.Nodup ∧
          (∀ r, r ∈ tt'.dfs.flatten ↔ r ∈ tt.dfs.flatten)) ∧
        (tt.unique = true → tt' = tt)) ∧
    deduplicate (deduplicate st) = deduplicate st := by
  refine ⟨rfl, ?_, deduplicate_idem st⟩
  intro p ot tt hb
  refine ⟨dedupTable tt, ?_, dedupTable_unique tt, ?_,
    dedupTable_of_unique tt⟩
  · rw [lookupBucket_deduplicate, hb]
    rfl
  · intro hnu
    rw [dedupTable_of_not_unique tt hnu]
    refine ⟨rfl, ?_, ?_⟩
    · show ([dedupFirst [] tt.dfs.flatten] : List Batch).flatten.Nodup
      simp only [List.flatten_cons, List.flatten_nil, List.append_nil]
      exact nodup_dedupFirst _ _
    · intro r
      show r ∈ ([dedupFirst [] tt.dfs.flatten] : List Batch).flatten ↔ _
      simp only [List.flatten_cons, List.flatten_nil, List.append_nil]
      rw [mem_dedupFirst]
      simp

theorem C5_deduplicate_amended_witness :
    ∃ tt', lookupBucket (deduplicate c4_st2) "p" RDFNodeType.iri = some tt' ∧
      tt'.unique = true ∧
      (c5_bucket.unique = false →
        tt'.dfs = [dedupFirst [] c5_bucket.dfs.flatten] ∧
        tt'.dfs.flatten.Nodup ∧
        (∀ r, r ∈ tt'.dfs.flatten ↔ r ∈ c5_bucket.dfs.flatten)) ∧
      (c5_bucket.unique = true → tt' = c5_bucket) :=
  (C5_deduplicate_amended c4_st2).2.1 "p" RDFNodeType.iri c5_bucket (by decide)

theorem C2_left_join_amended_witness :
    lookupA (lazy_left_join "lj" c2_left c2_rightEval none).datatypes "v" =
      some (RDFNodeType.literal XSD_STRING) := by
  have h := C2_left_join_amended "lj" c2_left c2_rightEval none
      (c2_rightEval
        { mappings := addCumsumOnes "lj" c2_left.mappings,
          columns := c2_left.columns,
          datatypes := c2_left.datatypes }) rfl
      [[Cell.scalar (Scalar.strS "a"), Cell.scalar (Scalar.intS 1)]] (by rfl)
      (by decide)
  exact h.1 "v" (RDFNodeType.literal XSD_STRING) (by decide)

/-! ## C10 -/

theorem soNull_filterMap (l : List (Option String × Option String))
    (h : ∀ r ∈ l, r.1 = none ∨ r.2 = none) :
    (l.filterMap (fun r => match r with
      | (some s, some o) => some (s, o)
      | _ => none)) = [] := by
  induction l with
  | nil => rfl
  | cons r rs ih =>
    have hr := h r (List.mem_cons_self _ _)
    have hrest : ∀ q ∈ rs, q.1 = none ∨ q.2 = none :=
      fun q hq => h q (List.mem_cons_of_mem _ hq)
    rcases r with ⟨a, b⟩
    rcases hr with ha | hb
    · simp only at ha
      subst ha
      simpa [List.filterMap_cons] using ih hrest
    · simp only at hb
      subst hb
      cases a with
      | none => simpa [List.filterMap_cons] using ih hrest
      | some s => simpa [List.filterMap_cons] using ih hrest

theorem prepare_null_rows (df : List PrepRow) (object_type : RDFNodeType)
    (language_tag : Option String) (static_verb : Option String) (hus : Bool)
    (hnull : ∀ r ∈ df, r.subject = none ∨ r.object = none)
    (hverb : static_verb.isSome ∨ ∀ r ∈ df, r.verb.isSome) :
    prepare_triples df object_type language_tag static_verb hus = Res.ok [] := by
  by_cases hemp : df.length = 0
  · simp [prepare_triples, hemp]
  · cases static_verb with
    | some v =>
      have hd : prepare_triples_df (df.map (fun r => (r.subject, r.object))) v
          object_type language_tag hus = none := by
        unfold prepare_triples_df
        have hz : ((df.map (fun r => (r.subject, r.object))).filterMap
            (fun r => match r with
              | (some s, some o) => some (s, o)
              | _ => none)) = [] := by
          apply soNull_filterMap
          intro q hq
          rcases List.mem_map.mp hq with ⟨r, hr, rfl⟩
          exact hnull r hr
        simp [hz]
      simp [prepare_triples, hemp, hd]
    | none =>
      have hv : ∀ r ∈ df, r.verb.isSome := by
        rcases hverb with hs | hv
        · exact absurd hs (by simp)
        · exact hv
      have hany : (df.any (fun r => r.verb.isNone)) = false := by
        rw [List.any_eq_false]
        intro r hr
        cases hvr : r.verb with
        | none => exact absurd (hv r hr) (by simp [hvr])
        | some s => simp [hvr]
      have hall : ∀ v ∈ dedupFirst [] (df.filterMap (fun r => r.verb)),
          prepare_triples_df ((df.filter (fun r => r.verb == some v)).map
            (fun r => (r.subject, r.object))) v object_type language_tag hus =
            none := by
        intro v _
        unfold prepare_triples_df
        have hz : (((df.filter (fun r => r.verb == some v)).map
            (fun r => (r.subject, r.object))).filterMap (fun r => match r with
              | (some s, some o) => some (s, o)
              | _ => none)) = [] := by
          apply soNull_filterMap
          intro q hq
          rcases List.mem_map.mp hq with ⟨r, hr, rfl⟩
          exact hnull r (List.mem_of_mem_filter hr)
        simp [hz]
      have hfm : (dedupFirst [] (df.filterMap (fun r => r.verb))).filterMap
          (fun v => prepare_triples_df ((df.filter (fun r => r.verb == some v)).map
            (fun r => (r.subject, r.object))) v object_type language_tag hus) =
          [] := by
        rw [List.filterMap_eq_nil_iff]
        exact hall
      simp [prepare_triples, hemp, hany, hfm]

/-- C10: confirmed.  A leaf emission whose batch has zero rows, or all
of whose rows hold a null subject or a null object, contributes nothing
to the store: prepare_triples returns no TripleDF for it (the zero-row
check at triplestore.rs 281-283, drop_nulls plus the height check at
334-337), so add_triples_vec leaves the store's buckets, their batch
lists, unique flags, call_uuids and the deduplicated flag exactly as
they were.  (For a batch routed through the verb partitioning we also
assume the rows' verb entries are non-null, as produced by leaf
emissions; a null verb would panic in the AnyValue::Utf8 match at row 0
before the null rows are dropped.) -/
theorem C10_null_emission_frame (st : Triplestore) (u : String)
    (e : TriplesToAdd)
    (hnull : e.df = [] ∨ ∀ r ∈ e.df, r.subject = none ∨ r.object = none)
    (hverb : e.static_verb_column.isSome = true ∨ ∀ r ∈ e.df, r.verb.isSome = true) :
    add_triples_vec st [e] u = Res.ok st := by
  have hp : prepare_triples e.df e.object_type e.language_tag
      e.static_verb_column e.has_unique_subset = Res.ok [] := by
    rcases hnull with hemp | hnull
    · simp [prepare_triples, hemp]
    · exact prepare_null_rows e.df e.object_type e.language_tag
        e.static_verb_column e.has_unique_subset hnull hverb
  simp [add_triples_vec, hp, add_triples_df_without_folder]

def c10_em : TriplesToAdd :=
  { df := [{ subject := none, object := some "x", verb := some "p" }],
    object_type := RDFNodeType.iri, language_tag := none,
    static_verb_column := none, has_unique_subset := false }

theorem C10_null_emission_frame_witness :
    add_triples_vec c4_st2 [c10_em] "w" = Res.ok c4_st2 :=
  C10_null_emission_frame c4_st2 "w" c10_em
    (Or.inr (by decide)) (Or.inr (by decide))

/-! ## C8 -/

def c8_template_T : Template :=
  { signature :=
      { template_name := "http://ex/T",
        parameter_list :=
          [ { optional := false, non_blank := false, ptype := none,
              stottr_variable := "x", default_value := none } ] },
    pattern_list :=
      [ { template_name := "http://ex/Missing",
          argument_list := [ { term := StottrTerm.var "x", list_expand := false } ],
          list_expander := none } ] }

def c8_tds : TemplateDataset :=
  { templates := [ottrTripleTemplate, c8_template_T],
    prefix_map := [("ex", "http://ex/")] }

def c8_df : DF := { cols := ["x"], rows := [[Cell.scalar (Scalar.strS "a")]] }

def c8_dyn : List (String × PrimitiveColumn) :=
  [("x", { rdf_node_type := RDFNodeType.iri, language_tag := none })]

/-- C8 counterexample: the template http://ex/T is found, but its body
references the undefined template http://ex/Missing.  The claim says
such a failure during recursion is returned as an error
(TemplateNotFound); the code instead hits the
`self.template_dataset.get(..).unwrap()` at src/mapping.rs 328-329 and
panics — the expansion neither returns TemplateNotFound nor any other
error value. -/
theorem C8_nested_panic_counterexample :
    expandModel c8_tds 3 "http://ex/T" c8_df c8_dyn [] [] = Res.panicked ∧
    expandModel c8_tds 3 "http://ex/T" c8_df c8_dyn [] [] ≠
      Res.err (MappingError.templateNotFound "http://ex/Missing") := by
  exact ⟨by decide, by decide⟩

theorem mapM_cons_some {α β : Type} (f : α → Option β) (a : α) (l : List α)
    (res : List β) (h : (a :: l).mapM f = some res) :
    ∃ b bs, f a = some b ∧ l.mapM f = some bs ∧ res = b :: bs := by
  rw [List.mapM_cons] at h
  cases hfa : f a with
  | none => rw [hfa] at h; simp at h
  | some b =>
    rw [hfa] at h
    cases hl : l.mapM f with
    | none => rw [hl] at h; simp at h
    | some bs =>
      rw [hl] at h
      have h2 : some (b :: bs) = some res := h
      injection h2 with h3
      exact ⟨b, bs, rfl, rfl, h3.symm⟩

theorem expandPairs_head_missing (tds : TemplateDataset)
    (recurse : String → DF → List (String × PrimitiveColumn) →
      List (String × StaticColumn) → List (List String) →
      Res (List OTTRTripleInstance))
    (i : Instance) (idf : DF) (rest : List (Instance × DF))
    (dyn : List (String × PrimitiveColumn)) (stat : List (String × StaticColumn))
    (us : List (List String)) (h : tds.get i.template_name = none) :
    expandPairs tds recurse ((i, idf) :: rest) dyn stat us = Res.panicked := by
  simp [expandPairs, h]

/-- C8 amended: the claim's description of name resolution is right for
the TOP-LEVEL template name — `resolve_template` tries the exact IRI
first; failing that it splits on ':' and consults the prefix map, a
prefix that resolves to an IRI naming no template yields the distinct
error NoTemplateForTemplateNameFromPrefix, and an unresolvable name
yields TemplateNotFound, both returned to the caller.  But template
names referenced by NESTED instances during recursion are looked up
directly without prefix resolution, and a missing one causes a panic
(an `unwrap` at src/mapping.rs 328-329), not an error. -/
theorem C8_resolution_amended (tds : TemplateDataset) (s : String) :
    (∀ t, tds.get s = some t → resolve_template tds s = Except.ok t) ∧
    (∀ pfx rest nn, tds.get s = none → s.splitOn ":" = pfx :: rest →
      lookupA tds.prefix_map pfx = some nn →
      tds.get (nn ++ String.intercalate ":" rest) = none →
      resolve_template tds s = Except.error
        (MappingError.noTemplateForTemplateNameFromPrefix
          (nn ++ String.intercalate ":" rest))) ∧
    (∀ pfx rest, tds.get s = none → s.splitOn ":" = pfx :: rest →
      lookupA tds.prefix_map pfx = none →
      resolve_template tds s = Except.error (MappingError.templateNotFound s)) ∧
    (∀ fuel name template df dyn stat us i rest,
      tds.get name = some template →
      (template.signature.template_name == OTTR_TRIPLE) = false →
      template.pattern_list = i :: rest →
      tds.get i.template_name = none →
      expandModel tds fuel name df dyn stat us = Res.panicked) := by
  refine ⟨?_, ?_, ?_, ?_⟩
  · intro t h
    simp [resolve_template, h]
  · intro pfx rest nn h0 hsplit hpfx hmiss
    simp [resolve_template, h0, hsplit, hpfx, hmiss]
  · intro pfx rest h0 hsplit hpfx
    simp [resolve_template, h0, hsplit, hpfx]
  · intro fuel name template df dyn stat us i rest hget hname hpat hmiss
    cases fuel with
    | zero => rfl
    | succ n =>
      show (match tds.get name with
        | none => Res.err (MappingError.templateNotFound name)
        | some template =>
          if template.signature.template_name == OTTR_TRIPLE then
            Res.ok [{ df := df, dynamic_columns := dyn, static_columns := stat,
                      has_unique_subset := !us.isEmpty }]
          else if template.pattern_list.any (fun i =>
              i.argument_list.any (fun a => a.term.isListTerm)) then
            Res.panicked
          else if !(template.pattern_list.all (fun i =>
              (get_variable_names i).all (fun v => (lookupA dyn v).isSome))) then
            Res.panicked
          else
            match template.pattern_list.mapM (fun i =>
                (buildInstanceDF df i).map (fun d => (i, d))) with
            | none => Res.panicked
            | some pairs =>
              expandPairs tds (expandModel tds n) pairs dyn stat us) =
        Res.panicked
      rw [hget]
      dsimp only
      rw [if_neg (by simp [hname])]
      by_cases hlist : (template.pattern_list.any (fun i =>
          i.argument_list.any (fun a => a.term.isListTerm))) = true
      · rw [if_pos hlist]
      · rw [if_neg (by simp [Bool.not_eq_true] at hlist ⊢; exact hlist)]
        by_cases hdyn : (!(template.pattern_list.all (fun i =>
            (get_variable_names i).all (fun v => (lookupA dyn v).isSome)))) = true
        · rw [if_pos hdyn]
        · rw [if_neg (by simp only [Bool.not_eq_true] at hdyn ⊢; rw [hdyn])]
          cases hmm : (template.pattern_list.mapM (fun i =>
              (buildInstanceDF df i).map (fun d => (i, d)))) with
          | none => simp only [hmm]
          | some pairs =>
            simp only [hmm]
            rw [hpat] at hmm
            rcases mapM_cons_some _ i rest pairs hmm with ⟨b, bs, hfa, _, hres⟩
            cases hbuild : buildInstanceDF df i with
            | none => rw [hbuild] at hfa; simp at hfa
            | some d =>
              rw [hbuild] at hfa
              have hfa2 : some (i, d) = some b := hfa
              injection hfa2 with hfa3
              subst hres
              rw [← hfa3]
              exact expandPairs_head_missing tds (expandModel tds n) i d bs
                dyn stat us hmiss

theorem C8_resolution_amended_witness :
    resolve_template c8_tds "http://ex/T" = Except.ok c8_template_T :=
  (C8_resolution_amended c8_tds "http://ex/T").1 c8_template_T (by decide)

def termIsVar : TermPatternM → Bool
  | TermPatternM.var _ => true
  | _ => false

def termIsBlank : TermPatternM → Bool
  | TermPatternM.blankNodeP _ => true
  | _ => false

theorem term_pattern_series_ok (df : DF) (dts : List (String × RDFNodeType))
    (tp : TermPatternM) (len : Nat)
    (hnb : termIsBlank tp = false)
    (hready : ∀ v, tp = TermPatternM.var v →
      (colIdx df.cols v).isSome = true ∧ (lookupA dts v).isSome = true) :
    ∃ cells dt, term_pattern_series df dts tp len = Res.ok (cells, dt) ∧
      cells.length = (if termIsVar tp then df.height else len) := by
  cases tp with
  | namedNode s =>
    exact ⟨_, _, rfl, by simp [termIsVar]⟩
  | blankNodeP s => simp [termIsBlank] at hnb
  | literalPat lex dt =>
    exact ⟨_, _, rfl, by simp [termIsVar]⟩
  | var v =>
    rcases hready v rfl with ⟨hc, hd⟩
    rcases Option.isSome_iff_exists.mp hc with ⟨i, hi⟩
    rcases Option.isSome_iff_exists.mp hd with ⟨dt, hdt⟩
    refine ⟨df.rows.map (fun r => r.getD i Cell.null), dt, ?_,
      by simp [termIsVar, DF.height]⟩
    simp [term_pattern_series, variable_series, hi, hdt]

def nnpIsVar : NamedNodePatternM → Bool
  | NamedNodePatternM.var _ => true
  | _ => false

theorem named_node_pattern_series_ok (df : DF) (dts : List (String × RDFNodeType))
    (nnp : NamedNodePatternM) (len : Nat)
    (hready : ∀ v, nnp = NamedNodePatternM.var v →
      (colIdx df.cols v).isSome = true ∧ (lookupA dts v).isSome = true) :
    ∃ cells dt, named_node_pattern_series df dts nnp len = Res.ok (cells, dt) ∧
      cells.length = (if nnpIsVar nnp then df.height else len) := by
  cases nnp with
  | namedNode s => exact ⟨_, _, rfl, by simp [nnpIsVar]⟩
  | var v =>
    rcases hready v rfl with ⟨hc, hd⟩
    rcases Option.isSome_iff_exists.mp hc with ⟨i, hi⟩
    rcases Option.isSome_iff_exists.mp hd with ⟨dt, hdt⟩
    refine ⟨df.rows.map (fun r => r.getD i Cell.null), dt, ?_,
      by simp [DF.height, nnpIsVar]⟩
    simp [named_node_pattern_series, variable_series, hi, hdt]

/-- C9 amended: triple_to_df returns a 1-row batch exactly when the
template triple has no variables in its SUBJECT and OBJECT positions
(and the predicate is not a variable either), and a height(solution)-row
batch when the subject or the object is a variable; a variable sitting
only in the predicate position is not counted by triple_has_variable, so
that case picks len = 1 and panics on mismatched series lengths whenever
height(solution) ≠ 1 (see the counterexample).  Hypotheses: the subject
and object are not blank nodes (unimplemented! in the source) and every
variable used is a solution column with a recorded type (unwraps in the
source). -/
theorem C9_construct_amended (df : DF) (dts : List (String × RDFNodeType))
    (t : TriplePatternM)
    (hsb : termIsBlank t.subject = false)
    (hob : termIsBlank t.object = false)
    (hready : ∀ v, (t.subject = TermPatternM.var v ∨ t.object = TermPatternM.var v) →
      (colIdx df.cols v).isSome = true ∧ (lookupA dts v).isSome = true)
    (hpready : ∀ v, t.predicate = NamedNodePatternM.var v →
      (colIdx df.cols v).isSome = true ∧ (lookupA dts v).isSome = true) :
    (triple_has_variable t = false →
      (∀ v, t.predicate ≠ NamedNodePatternM.var v) →
      ∃ b dt, triple_to_df df dts t = Res.ok (b, dt) ∧ b.height = 1) ∧
    (triple_has_variable t = true →
      ∃ b dt, triple_to_df df dts t = Res.ok (b, dt) ∧ b.height = df.height) := by
  constructor
  · intro hvar hnp
    have hboth : (termIsVar t.subject || termIsVar t.object) = false := hvar
    have hsv : termIsVar t.subject = false := (Bool.or_eq_false_iff.mp hboth).1
    have hov : termIsVar t.object = false := (Bool.or_eq_false_iff.mp hboth).2
    rcases term_pattern_series_ok df dts t.subject 1 hsb
      (fun v hv => hready v (Or.inl hv)) with ⟨sc, sdt, hs, hsl⟩
    rcases named_node_pattern_series_ok df dts t.predicate 1 hpready
      with ⟨vc, vdt, hv2, hvl⟩
    rcases term_pattern_series_ok df dts t.object 1 hob
      (fun v hv => hready v (Or.inr hv)) with ⟨oc, odt, ho, hol⟩
    rw [hsv] at hsl
    rw [hov] at hol
    simp only [if_false, Bool.false_eq_true] at hsl hol
    have hvl2 : vc.length = 1 := by
      cases hp : t.predicate with
      | var v => exact absurd hp (hnp v)
      | namedNode s =>
        have hnv : nnpIsVar t.predicate = false := by rw [hp]; rfl
        rw [hnv] at hvl
        simpa using hvl
    refine ⟨{ cols := ["subject", "verb", "object"],
              rows := (sc.zip (vc.zip oc)).map (fun p => [p.1, p.2.1, p.2.2]) },
            odt, ?_, ?_⟩
    · simp [triple_to_df, hvar, hs, hv2, ho, hsl, hvl2, hol]
    · simp [DF.height, List.length_zip, hsl, hvl2, hol]
  · intro hvar
    rcases term_pattern_series_ok df dts t.subject df.height hsb
      (fun v hv => hready v (Or.inl hv)) with ⟨sc, sdt, hs, hsl⟩
    rcases named_node_pattern_series_ok df dts t.predicate df.height hpready
      with ⟨vc, vdt, hv2, hvl⟩
    rcases term_pattern_series_ok df dts t.object df.height hob
      (fun v hv => hready v (Or.inr hv)) with ⟨oc, odt, ho, hol⟩
    have hsl2 : sc.length = df.height := by
      rw [hsl]; cases termIsVar t.subject <;> simp
    have hol2 : oc.length = df.height := by
      rw [hol]; cases termIsVar t.object <;> simp
    have hvl2 : vc.length = df.height := by
      rw [hvl]; cases nnpIsVar t.predicate <;> simp
    refine ⟨{ cols := ["subject", "verb", "object"],
              rows := (sc.zip (vc.zip oc)).map (fun p => [p.1, p.2.1, p.2.2]) },
            odt, ?_, ?_⟩
    · simp [triple_to_df, hvar, hs, hv2, ho, hsl2, hvl2, hol2]
    · simp [DF.height, List.length_zip, hsl2, hvl2, hol2]

def c9_wdf : DF :=
  { cols := ["o"],
    rows := [[Cell.scalar (Scalar.strS "x")], [Cell.scalar (Scalar.strS "y")]] }

def c9_wt : TriplePatternM :=
  { subject := TermPatternM.namedNode "s",
    predicate := NamedNodePatternM.namedNode "p",
    object := TermPatternM.var "o" }

theorem C9_construct_amended_witness :
    ∃ b dt, triple_to_df c9_wdf [("o", RDFNodeType.iri)] c9_wt = Res.ok (b, dt) ∧
      b.height = c9_wdf.height := by
  have hready : ∀ v, (c9_wt.subject = TermPatternM.var v ∨
      c9_wt.object = TermPatternM.var v) →
      (colIdx c9_wdf.cols v).isSome = true ∧
      (lookupA [("o", RDFNodeType.iri)] v).isSome = true := by
    intro v hv
    rcases hv with hv | hv
    · exact absurd hv (by simp [c9_wt])
    · have h4 : TermPatternM.var "o" = TermPatternM.var v := hv
      injection h4 with h5
      subst h5
      exact ⟨by decide, by decide⟩
  have hpready : ∀ v, c9_wt.predicate = NamedNodePatternM.var v →
      (colIdx c9_wdf.cols v).isSome = true ∧
      (lookupA [("o", RDFNodeType.iri)] v).isSome = true := by
    intro v hv
    exact absurd hv (by simp [c9_wt])
  have h := C9_construct_amended c9_wdf [("o", RDFNodeType.iri)] c9_wt
    (by decide) (by decide) hready hpready
  exact h.2 (by decide)

/-! ## C6 -/

theorem findIdx?_shift {α : Type} (p : α → Bool) :
    ∀ (l : List α) (i : Nat),
      List.findIdx? p l i = (List.findIdx? p l 0).map (fun x => x + i) := by
  intro l
  induction l with
  | nil => intro i; rfl
  | cons a l ih =>
    intro i
    rw [List.findIdx?_cons, List.findIdx?_cons]
    by_cases h : p a
    · simp [h]
    · simp only [h, if_false, Bool.false_eq_true]
      rw [ih (i + 1), ih 1]
      cases List.findIdx? p l 0 with
      | none => rfl
      | some j => simp; omega

theorem findIdx?_cons_zero {α : Type} (p : α → Bool) (a : α) (l : List α) :
    List.findIdx? p (a :: l) =
      if p a then some 0 else (List.findIdx? p l).map (fun x => x + 1) := by
  show List.findIdx? p (a :: l) 0 = _
  rw [List.findIdx?_cons]
  by_cases h : p a
  · simp [h]
  · simp only [h, if_false, Bool.false_eq_true]
    exact findIdx?_shift p l 1

/-- In a rename along nodup source names, each (source, target) pair is
mapped onto its target. -/
theorem rename_pair :
    ∀ (existing newNames : List String), existing.Nodup →
      ∀ p ∈ existing.zip newNames,
        (match List.findIdx? (fun x => x == p.1) existing with
         | some i => newNames.getD i p.1
         | none => p.1) = p.2 := by
  intro existing
  induction existing with
  | nil => intro newNames _ p hp; simp at hp
  | cons v es ih =>
    intro newNames hnd p hp
    cases newNames with
    | nil => simp at hp
    | cons t ts =>
      rcases List.mem_cons.mp hp with hphead | hptail
      · subst hphead
        rw [findIdx?_cons_zero]
        simp
      · have hp1 : p.1 ∈ es := (List.of_mem_zip hptail).1
        have hvne : (v == p.1) = false := by
          have : v ∉ es := (List.nodup_cons.mp hnd).1
          simp only [beq_eq_false_iff_ne, ne_eq]
          intro hv
          exact this (hv ▸ hp1)
        rw [findIdx?_cons_zero, hvne]
        simp only [if_false, Bool.false_eq_true]
        have ihp := ih ts (List.nodup_cons.mp hnd).2 p hptail
        cases hfi : List.findIdx? (fun x => x == p.1) es with
        | none =>
          rw [hfi] at ihp
          simpa using ihp
        | some j =>
          rw [hfi] at ihp
          simpa [List.getD] using ihp

/-- A plain variable argument bound in the caller's dynamic columns. -/
def plainVarArg (dyn : List (String × PrimitiveColumn)) (a : Argument) : Prop :=
  a.list_expand = false ∧
    ∃ v, a.term = StottrTerm.var v ∧ (lookupA dyn v).isSome = true

def varsOfPairs (pairs : List (Argument × Parameter)) : List String :=
  pairs.filterMap (fun pr => argVar pr.1)

def targetsOfPairs (pairs : List (Argument × Parameter)) : List String :=
  pairs.map (fun pr => pr.2.stottr_variable)

theorem varsOfPairs_sublist :
    ∀ (l1 : List Argument) (l2 : List Parameter),
      List.Sublist (varsOfPairs (l1.zip l2)) (l1.filterMap argVar) := by
  intro l1
  induction l1 with
  | nil => intro l2; simp [varsOfPairs]
  | cons a as ih =>
    intro l2
    cases l2 with
    | nil =>
      simp only [List.zip_nil_right, varsOfPairs, List.filterMap_nil]
      exact List.nil_sublist _
    | cons q qs =>
      show List.Sublist (varsOfPairs ((a, q) :: as.zip qs))
        ((a :: as).filterMap argVar)
      simp only [varsOfPairs, List.filterMap_cons]
      cases argVar a with
      | none => exact ih qs
      | some v => exact List.Sublist.cons₂ v (ih qs)

theorem varsOfPairs_length (dyn : List (String × PrimitiveColumn)) :
    ∀ pairs : List (Argument × Parameter),
      (∀ pr ∈ pairs, plainVarArg dyn pr.1) →
      (varsOfPairs pairs).length = pairs.length := by
  intro pairs
  induction pairs with
  | nil => intro _; rfl
  | cons pr rest ih =>
    intro h
    rcases (h pr (List.mem_cons_self _ _)).2 with ⟨v, hv, _⟩
    have hav : argVar pr.1 = some v := by simp [argVar, hv]
    simp only [varsOfPairs, List.filterMap_cons, hav, List.length_cons]
    have := ih (fun q hq => h q (List.mem_cons_of_mem _ hq))
    simp only [varsOfPairs] at this
    rw [this]

/-- remapArgs on a list of plain variable arguments bound in dyn:
succeeds, appending the variable names to `existing` and the parameter
names to `newNames`, with no expansion marks, expressions or promoted
constants. -/
theorem remapArgs_plain (dyn : List (String × PrimitiveColumn))
    (stat : List (String × StaticColumn)) :
    ∀ (pairs : List (Argument × Parameter)) (st0 : RemapState),
      (∀ pr ∈ pairs, plainVarArg dyn pr.1) →
      ∃ st, remapArgs dyn stat pairs st0 = Res.ok st ∧
        st.to_expand = st0.to_expand ∧
        st.expressions = st0.expressions ∧
        st.new_dynamic_from_constant = st0.new_dynamic_from_constant ∧
        st.existing = st0.existing ++ varsOfPairs pairs ∧
        st.newNames = st0.newNames ++ targetsOfPairs pairs := by
  intro pairs
  induction pairs with
  | nil =>
    intro st0 _
    exact ⟨st0, rfl, rfl, rfl, rfl, by simp [varsOfPairs], by simp [targetsOfPairs]⟩
  | cons pr rest ih =>
    intro st0 h
    obtain ⟨a, q⟩ := pr
    obtain ⟨hle, v, hterm, hsome⟩ := h (a, q) (List.mem_cons_self _ _)
    have hle2 : a.list_expand = false := hle
    have hterm2 : a.term = StottrTerm.var v := hterm
    rcases Option.isSome_iff_exists.mp hsome with ⟨c, hc⟩
    have hav : argVar a = some v := by simp [argVar, hterm2]
    rcases ih { st0 with
        existing := st0.existing ++ [v],
        newNames := st0.newNames ++ [q.stottr_variable],
        new_dynamic_columns := insertA st0.new_dynamic_columns q.stottr_variable c }
      (fun pr2 h2 => h pr2 (List.mem_cons_of_mem _ h2)) with
      ⟨st, hst, h1, h2, h3, h4, h5⟩
    refine ⟨st, ?_, h1, h2, h3, ?_, ?_⟩
    · show remapArgs dyn stat ((a, q) :: rest) st0 = Res.ok st
      rw [remapArgs]
      simp only [hle2, hterm2, hc]
      simpa using hst
    · rw [h4]
      simp [varsOfPairs, List.filterMap_cons, hav]
    · rw [h5]
      simp [targetsOfPairs]

/-- create_remapped on an instance without list expander, all of whose
arguments are plain variables bound in the dynamic columns and present
as frame columns: it succeeds and the resulting frame keeps the input
height. -/
theorem create_remapped_vars_ok (inst : Instance) (sig : Signature) (df : DF)
    (dyn : List (String × PrimitiveColumn)) (stat : List (String × StaticColumn))
    (us : List (List String))
    (hexp : inst.list_expander = none)
    (hargs : ∀ a ∈ inst.argument_list, plainVarArg dyn a)
    (hvars : ∀ v ∈ get_variable_names inst, v ∈ df.cols)
    (hnd : (get_variable_names inst).Nodup) :
    ∃ out, create_remapped inst sig df dyn stat us = Res.ok out ∧
      out.1.height = df.height := by
  have hplain : ∀ pr ∈ inst.argument_list.zip sig.parameter_list,
      plainVarArg dyn pr.1 :=
    fun pr hpr => hargs pr.1 (List.of_mem_zip hpr).1
  rcases remapArgs_plain dyn stat (inst.argument_list.zip sig.parameter_list)
    emptyRemapState hplain with ⟨st, hst, hte, hexpr, hndfc, hex, hnn⟩
  have hexpr2 : st.expressions = [] := by simpa [emptyRemapState] using hexpr
  have hndfc2 : st.new_dynamic_from_constant = [] := by
    simpa [emptyRemapState] using hndfc
  have hex2 : st.existing = varsOfPairs (inst.argument_list.zip sig.parameter_list) := by
    simpa [emptyRemapState] using hex
  have hnn2 : st.newNames = targetsOfPairs (inst.argument_list.zip sig.parameter_list) := by
    simpa [emptyRemapState] using hnn
  have hsub : List.Sublist st.existing (get_variable_names inst) := by
    rw [hex2]
    exact varsOfPairs_sublist _ _
  have hexnd : st.existing.Nodup := hsub.nodup hnd
  have hexmem : ∀ v ∈ st.existing, v ∈ df.cols :=
    fun v hv => hvars v (hsub.subset hv)
  have hchk1 : (st.existing.all (fun c => df.cols.contains c)) = true := by
    rw [List.all_eq_true]
    intro c hcm
    exact List.elem_iff.mpr (hexmem c hcm)
  have hlen : st.existing.length = st.newNames.length := by
    rw [hex2, hnn2]
    rw [varsOfPairs_length dyn _ hplain]
    simp [targetsOfPairs]
  have hchk2 : (st.newNames.all
      (fun c => (renameCols st.existing st.newNames df).cols.contains c)) = true := by
    rw [List.all_eq_true]
    intro tgt htgt
    rcases List.mem_iff_getElem.mp htgt with ⟨j, hj, hjt⟩
    have hjex : j < st.existing.length := by omega
    have hzlen : j < (st.existing.zip st.newNames).length := by
      simp only [List.length_zip]
      omega
    have hzj : (st.existing.zip st.newNames)[j] = (st.existing[j], st.newNames[j]) :=
      List.getElem_zip
    have hmemz : (st.existing[j], tgt) ∈ st.existing.zip st.newNames := by
      rw [← hjt]
      rw [← hzj]
      exact List.getElem_mem hzlen
    have himg := rename_pair st.existing st.newNames hexnd _ hmemz
    have hcolmem : st.existing[j] ∈ df.cols := hexmem _ (List.getElem_mem hjex)
    apply List.elem_iff.mpr
    show tgt ∈ (renameCols st.existing st.newNames df).cols
    unfold renameCols
    rw [List.mem_map]
    exact ⟨st.existing[j], hcolmem, himg⟩
  unfold create_remapped
  rw [hst]
  dsimp only
  rw [hexpr2, hndfc2]
  simp only [List.foldl_nil, List.append_nil]
  rw [if_neg (by rw [hchk1]; simp)]
  rw [if_neg (by rw [hchk2]; simp)]
  rw [hexp]
  dsimp only
  refine ⟨_, rfl, ?_⟩
  simp [DF.height, selectCols, renameCols]

theorem expandModel_leaf (tds : TemplateDataset) (fuel : Nat) (df : DF)
    (dyn : List (String × PrimitiveColumn)) (stat : List (String × StaticColumn))
    (us : List (List String))
    (hottr : tds.get OTTR_TRIPLE = some ottrTripleTemplate) :
    expandModel tds (fuel + 1) OTTR_TRIPLE df dyn stat us =
      Res.ok [{ df := df, dynamic_columns := dyn, static_columns := stat,
                has_unique_subset := !us.isEmpty }] := by
  simp only [expandModel]
  rw [hottr]
  dsimp only
  rw [if_pos (by simp [ottrTripleTemplate])]

theorem expandPairs_triple_only (tds : TemplateDataset) (fuel : Nat)
    (dyn : List (String × PrimitiveColumn)) (stat : List (String × StaticColumn))
    (us : List (List String)) (H : Nat)
    (hottr : tds.get OTTR_TRIPLE = some ottrTripleTemplate) :
    ∀ pairs : List (Instance × DF),
      (∀ pr ∈ pairs, pr.1.template_name = OTTR_TRIPLE ∧
        pr.1.list_expander = none ∧
        (∀ a ∈ pr.1.argument_list, plainVarArg dyn a) ∧
        (∀ v ∈ get_variable_names pr.1, v ∈ pr.2.cols) ∧
        (get_variable_names pr.1).Nodup ∧ pr.2.height = H) →
      ∃ leaves, expandPairs tds (expandModel tds (fuel + 1)) pairs dyn stat us =
          Res.ok leaves ∧
        leaves.length = pairs.length ∧
        (leaves.map (fun l => l.df.height)).sum = H * pairs.length := by
  intro pairs
  induction pairs with
  | nil => intro _; exact ⟨[], rfl, rfl, by simp⟩
  | cons pr rest ih =>
    intro h
    obtain ⟨i, idf⟩ := pr
    obtain ⟨hname, hexp, hargs, hvars, hnd, hH⟩ := h (i, idf) (List.mem_cons_self _ _)
    have hname2 : i.template_name = OTTR_TRIPLE := hname
    have hargs2 : ∀ a ∈ i.argument_list, plainVarArg dyn a := hargs
    have hvars2 : ∀ v ∈ get_variable_names i, v ∈ idf.cols := hvars
    have hnd2 : (get_variable_names i).Nodup := hnd
    have hH2 : idf.height = H := hH
    rcases create_remapped_vars_ok i ottrTripleTemplate.signature idf dyn stat us
      hexp hargs2 hvars2 hnd2 with ⟨out, hcr, hh⟩
    obtain ⟨odf, odyn, ostat, ous⟩ := out
    have hodf : odf.height = H := by rw [← hH2]; exact hh
    have hrec : expandModel tds (fuel + 1) i.template_name odf odyn ostat ous =
        Res.ok [{ df := odf, dynamic_columns := odyn, static_columns := ostat,
                  has_unique_subset := !ous.isEmpty }] := by
      rw [hname2]
      exact expandModel_leaf tds fuel odf odyn ostat ous hottr
    rcases ih (fun q hq => h q (List.mem_cons_of_mem _ hq)) with
      ⟨leaves, hrest, hlen, hsum⟩
    refine ⟨{ df := odf, dynamic_columns := odyn, static_columns := ostat,
              has_unique_subset := !ous.isEmpty } :: leaves, ?_, ?_, ?_⟩
    · rw [expandPairs]
      rw [hname2, hottr]
      dsimp only
      rw [hcr]
      dsimp only
      rw [hname2] at hrec
      rw [hrec]
      dsimp only
      rw [hrest]
      rfl
    · simp [hlen]
    · simp only [List.map_cons, List.sum_cons, hsum, hodf, List.length_cons,
        Nat.mul_succ]
      omega

theorem mapM_eq_some_map {α β : Type} (f : α → Option β) (g : α → β) :
    ∀ l : List α, (∀ a ∈ l, f a = some (g a)) → l.mapM f = some (l.map g) := by
  intro l
  induction l with
  | nil => intro _; rfl
  | cons a l ih =>
    intro h
    rw [List.mapM_cons, h a (List.mem_cons_self _ _),
      ih (fun b hb => h b (List.mem_cons_of_mem _ hb))]
    rfl

theorem varnames_lookup (dyn : List (String × PrimitiveColumn)) (i : Instance)
    (hargs : ∀ a ∈ i.argument_list, plainVarArg dyn a) :
    ∀ v ∈ get_variable_names i, (lookupA dyn v).isSome = true := by
  intro v hv
  rcases List.mem_filterMap.mp hv with ⟨a, ha, hav⟩
  rcases hargs a ha with ⟨_, w, hterm, hsome⟩
  have ht2 : a.term = StottrTerm.var w := hterm
  unfold argVar at hav
  rw [ht2] at hav
  have hav2 : some w = some v := hav
  injection hav2 with hwv
  exact hwv ▸ hsome

theorem buildInstanceDF_some (df : DF) (i : Instance)
    (hvars : ∀ v ∈ get_variable_names i, v ∈ df.cols)
    (hnd : (get_variable_names i).Nodup) :
    buildInstanceDF df i = some (selectCols (get_variable_names i) df) := by
  unfold buildInstanceDF
  have h1 : decide (get_variable_names i).Nodup = true := decide_eq_true hnd
  have h2 : ((get_variable_names i).all (fun v => df.cols.contains v)) = true := by
    rw [List.all_eq_true]
    intro v hv
    exact List.elem_iff.mpr (hvars v hv)
  rw [if_pos (by rw [h1, h2]; rfl)]

/-- C6: confirmed.  For a template whose pattern list contains only
ottr:Triple instances — with no list expanders, each argument a plain
variable bound in the dynamic columns and present in the input frame,
and per-instance variable names distinct (so that the source's series
distribution and DataFrame::new succeed) — expansion emits exactly one
leaf batch per pattern-list entry, each of the input's height, so the
total number of emitted triples is rows(input) × |pattern_list|.  (With
list expansion absent there is nothing to account for; expanders change
the per-instance height at the explode step, covered by the C7
development.) -/
theorem C6_triple_only_count (tds : TemplateDataset) (name : String)
    (T : Template) (df : DF) (dyn : List (String × PrimitiveColumn))
    (stat : List (String × StaticColumn)) (us : List (List String)) (fuel : Nat)
    (hottr : tds.get OTTR_TRIPLE = some ottrTripleTemplate)
    (hT : tds.get name = some T)
    (hnl : (T.signature.template_name == OTTR_TRIPLE) = false)
    (hgood : ∀ i ∈ T.pattern_list, i.template_name = OTTR_TRIPLE ∧
      i.list_expander = none ∧ (∀ a ∈ i.argument_list, plainVarArg dyn a) ∧
      (∀ v ∈ get_variable_names i, v ∈ df.cols) ∧ (get_variable_names i).Nodup) :
    ∃ leaves, expandModel tds (fuel + 2) name df dyn stat us = Res.ok leaves ∧
      leaves.length = T.pattern_list.length ∧
      (leaves.map (fun l => l.df.height)).sum =
        df.height * T.pattern_list.length := by
  have hmapm : T.pattern_list.mapM
        (fun i => (buildInstanceDF df i).map (fun d => (i, d))) =
      some (T.pattern_list.map
        (fun i => (i, selectCols (get_variable_names i) df))) := by
    apply mapM_eq_some_map
    intro i hi
    rw [buildInstanceDF_some df i (hgood i hi).2.2.2.1 (hgood i hi).2.2.2.2]
    rfl
  have hpairs : ∀ pr ∈ T.pattern_list.map
        (fun i => (i, selectCols (get_variable_names i) df)),
      pr.1.template_name = OTTR_TRIPLE ∧ pr.1.list_expander = none ∧
      (∀ a ∈ pr.1.argument_list, plainVarArg dyn a) ∧
      (∀ v ∈ get_variable_names pr.1, v ∈ pr.2.cols) ∧
      (get_variable_names pr.1).Nodup ∧ pr.2.height = df.height := by
    intro pr hpr
    rcases List.mem_map.mp hpr with ⟨i, hi, rfl⟩
    obtain ⟨h1, h2, h3, h4, h5⟩ := hgood i hi
    refine ⟨h1, h2, h3, ?_, h5, ?_⟩
    · intro v hv
      exact hv
    · simp [DF.height, selectCols]
  rcases expandPairs_triple_only tds fuel dyn stat us df.height hottr
    (T.pattern_list.map (fun i => (i, selectCols (get_variable_names i) df)))
    hpairs with ⟨leaves, hep, hlen, hsum⟩
  have hlc : (T.pattern_list.any (fun i =>
      i.argument_list.any (fun a => a.term.isListTerm))) = false := by
    rw [List.any_eq_false]
    intro i hi
    have hin : (i.argument_list.any (fun a => a.term.isListTerm)) = false := by
      rw [List.any_eq_false]
      intro a ha
      rcases (hgood i hi).2.2.1 a ha with ⟨_, v, hterm, _⟩
      have ht2 : a.term = StottrTerm.var v := hterm
      simp [StottrTerm.isListTerm, ht2]
    simp [hin]
  have hdc : (T.pattern_list.all (fun i =>
      (get_variable_names i).all (fun v => (lookupA dyn v).isSome))) = true := by
    rw [List.all_eq_true]
    intro i hi
    rw [List.all_eq_true]
    intro v hv
    exact varnames_lookup dyn i (hgood i hi).2.2.1 v hv
  refine ⟨leaves, ?_, ?_, ?_⟩
  · show expandModel tds ((fuel + 1) + 1) name df dyn stat us = _
    simp only [expandModel]
    rw [hT]
    dsimp only
    rw [if_neg (by simp [hnl])]
    rw [if_neg (by rw [hlc]; simp)]
    rw [if_neg (by rw [hdc]; simp)]
    rw [hmapm]
    dsimp only
    exact hep
  · rw [hlen]
    simp
  · rw [hsum]
    simp

def c6_inst1 : Instance :=
  { template_name := OTTR_TRIPLE,
    argument_list :=
      [ { term := StottrTerm.var "s", list_expand := false },
        { term := StottrTerm.var "o", list_expand := false } ],
    list_expander := none }

def c6_inst2 : Instance :=
  { template_name := OTTR_TRIPLE,
    argument_list :=
      [ { term := StottrTerm.var "o", list_expand := false },
        { term := StottrTerm.var "s", list_expand := false } ],
    list_expander := none }

def c6_T : Template :=
  { signature :=
      { template_name := "http://ex/T",
        parameter_list :=
          [ { optional := false, non_blank := false, ptype := none,
              stottr_variable := "s", default_value := none },
            { optional := false, non_blank := false, ptype := none,
              stottr_variable := "o", default_value := none } ] },
    pattern_list := [c6_inst1, c6_inst2] }

def c6_tds : TemplateDataset :=
  { templates := [ottrTripleTemplate, c6_T], prefix_map := [] }

def c6_df : DF :=
  { cols := ["s", "o"],
    rows := [[Cell.scalar (Scalar.strS "a"), Cell.scalar (Scalar.strS "x")],
             [Cell.scalar (Scalar.strS "b"), Cell.scalar (Scalar.strS "y")]] }

def c6_dyn : List (String × PrimitiveColumn) :=
  [("s", { rdf_node_type := RDFNodeType.iri, language_tag := none }),
   ("o", { rdf_node_type := RDFNodeType.iri, language_tag := none })]

theorem C6_triple_only_count_witness :
    ∃ leaves, expandModel c6_tds 2 "http://ex/T" c6_df c6_dyn [] [] =
        Res.ok leaves ∧
      leaves.length = c6_T.pattern_list.length ∧
      (leaves.map (fun l => l.df.height)).sum =
        c6_df.height * c6_T.pattern_list.length := by
  refine C6_triple_only_count c6_tds "http://ex/T" c6_T c6_df c6_dyn [] [] 0
    (by decide) (by decide) (by decide) ?_
  intro i hi
  rcases List.mem_cons.mp hi with rfl | hi2
  · refine ⟨rfl, rfl, ?_, by decide, by decide⟩
    intro a ha
    rcases List.mem_cons.mp ha with rfl | ha2
    · exact ⟨rfl, "s", rfl, by decide⟩
    · rcases List.mem_cons.mp ha2 with rfl | ha3
      · exact ⟨rfl, "o", rfl, by decide⟩
      · simp at ha3
  · rcases List.mem_cons.mp hi2 with rfl | hi3
    · refine ⟨rfl, rfl, ?_, by decide, by decide⟩
      intro a ha
      rcases List.mem_cons.mp ha with rfl | ha2
      · exact ⟨rfl, "o", rfl, by decide⟩
      · rcases List.mem_cons.mp ha2 with rfl | ha3
        · exact ⟨rfl, "s", rfl, by decide⟩
        · simp at ha3
    · simp at hi3

end Stottrs
